import Mathlib

/-!
Verification of the statistics-collection and cheat-scoring engine of the
demo-anticheat repository, via a shallow embedding of the Go sources into
Lean 4.  Go `float64` arithmetic is embedded as exact rational arithmetic
(`ℚ`), `int`/`int64` as `ℤ`, `uint64` player ids as `ℕ`, and Go maps as
association lists.  Fallible lookups (`value, ok := m[k]`) are embedded as
`Option`.
-/

/-- Association-list lookup, embedding a read `v, ok := m[k]` of a Go map. -/
def getKey {κ α : Type} [DecidableEq κ] : List (κ × α) → κ → Option α
  | [], _ => none
  | (k0, v0) :: t, k => if k0 = k then some v0 else getKey t k

/-- Association-list update, embedding a write `m[k] = v` to a Go map. -/
def setKey {κ α : Type} [DecidableEq κ] : List (κ × α) → κ → α → List (κ × α)
  | [], k, v => [(k, v)]
  | (k0, v0) :: t, k, v => if k0 = k then (k, v) :: t else (k0, v0) :: setKey t k v

/-- Association-list deletion, embedding `delete(m, k)`. -/
def delKey {κ α : Type} [DecidableEq κ] : List (κ × α) → κ → List (κ × α)
  | [], _ => []
  | (k0, v0) :: t, k => if k0 = k then delKey t k else (k0, v0) :: delKey t k

theorem getKey_setKey_self {κ α : Type} [DecidableEq κ] (l : List (κ × α)) (k : κ) (v : α) :
    getKey (setKey l k v) k = some v := by
  induction l with
  | nil => simp [getKey, setKey]
  | cons hd t ih =>
    obtain ⟨k0, v0⟩ := hd
    by_cases h : k0 = k
    · simp [getKey, setKey, h]
    · simp [getKey, setKey, h, ih]

theorem getKey_setKey_ne {κ α : Type} [DecidableEq κ] (l : List (κ × α)) (k k' : κ) (v : α)
    (h : k' ≠ k) : getKey (setKey l k v) k' = getKey l k' := by
  induction l with
  | nil => simp [getKey, setKey, Ne.symm h]
  | cons hd t ih =>
    obtain ⟨k0, v0⟩ := hd
    by_cases h0 : k0 = k
    · subst h0
      simp [getKey, setKey, Ne.symm h]
    · simp [getKey, setKey, h0, ih]

theorem getKey_delKey_ne {κ α : Type} [DecidableEq κ] (l : List (κ × α)) (k k' : κ)
    (h : k' ≠ k) : getKey (delKey l k) k' = getKey l k' := by
  induction l with
  | nil => simp [delKey]
  | cons hd t ih =>
    obtain ⟨k0, v0⟩ := hd
    by_cases h0 : k0 = k
    · subst h0
      simp [getKey, delKey, Ne.symm h, ih]
    · simp [getKey, delKey, h0, ih]

theorem getKey_append_ne {κ α : Type} [DecidableEq κ] (l : List (κ × α)) (k k' : κ) (v : α)
    (h : k' ≠ k) : getKey (l ++ [(k, v)]) k' = getKey l k' := by
  induction l with
  | nil => simp [getKey, Ne.symm h]
  | cons hd t ih =>
    obtain ⟨k0, v0⟩ := hd
    simp [getKey, ih]

/-! ## Metrics store (source: `src/unnamed/part_007`)

`Category` and `Key` are string tags in the source; we keep them as `String`.
`MetricType` is a Go string type with six constants. -/

/-- Metric type tag "count" (source `MetricCount`). -/
def MetricCount : String := "count"

/-- Metric type tag "percentage" (source `MetricPercentage`). -/
def MetricPercentage : String := "percentage"

/-- Metric type tag "duration" (source `MetricDuration`). -/
def MetricDuration : String := "duration"

/-- Metric type tag "float" (source `MetricFloat`). -/
def MetricFloat : String := "float"

/-- Metric type tag "integer" (source `MetricInteger`). -/
def MetricInteger : String := "integer"

/-- Metric type tag "string" (source `MetricString`). -/
def MetricString : String := "string"

/-- A single statistical measure (source struct `Metric`, part_007 lines 39-47).
`float64` is embedded as `ℚ`, `int64` as `ℤ`, `time.Duration` as `ℤ`. -/
structure Metric where
  type : String
  floatValue : ℚ
  intValue : ℤ
  durationValue : ℤ
  stringValue : String
  description : String
deriving DecidableEq

/-- The Go zero value `Metric{}`. -/
def Metric.zero : Metric := ⟨"", 0, 0, 0, "", ""⟩

instance : Inhabited Metric := ⟨Metric.zero⟩

/-- Identity of a player (source struct `PlayerIdentifier`). -/
structure PlayerIdentifier where
  steamID64 : ℕ
  name : String
deriving DecidableEq

/-- All statistics for a player (source struct `PlayerStats`): a map from
category to a map from key to metric, embedded as association lists. -/
structure PlayerStats where
  player : PlayerIdentifier
  categories : List (String × List (String × Metric))
deriving DecidableEq

/-- Source `PlayerStats.AddMetric` (part_007 lines 66-72): create the category
map if missing, then overwrite the key. -/
def PlayerStats.AddMetric (ps : PlayerStats) (category key : String) (metric : Metric) :
    PlayerStats :=
  let catMap := (getKey ps.categories category).getD []
  { ps with categories := setKey ps.categories category (setKey catMap key metric) }

/-- Source `PlayerStats.GetMetric` (part_007 lines 74-82).  The Go function
returns `(Metric{}, false)` when absent; we embed the pair as `Option`. -/
def PlayerStats.GetMetric (ps : PlayerStats) (category key : String) : Option Metric :=
  (getKey ps.categories category).bind fun catMap => getKey catMap key

/-- The metric `Metric{Type: MetricInteger, IntValue: 1}` created by
`IncrementIntMetric` for an absent key. -/
def intOneMetric : Metric := { Metric.zero with type := MetricInteger, intValue := 1 }

/-- Source `PlayerStats.IncrementIntMetric` (part_007 lines 84-104): create the
metric at 1 if the category or key is absent; otherwise increment the stored
metric's `IntValue` field (the source performs no type check and has no error
path). -/
def PlayerStats.IncrementIntMetric (ps : PlayerStats) (category key : String) : PlayerStats :=
  match getKey ps.categories category with
  | none =>
      { ps with categories := setKey ps.categories category (setKey [] key intOneMetric) }
  | some catMap =>
      match getKey catMap key with
      | some metric =>
          let bumped := { metric with intValue := metric.intValue + 1 }
          { ps with categories := setKey ps.categories category (setKey catMap key bumped) }
      | none =>
          { ps with categories := setKey ps.categories category (setKey catMap key intOneMetric) }

theorem GetMetric_AddMetric (ps : PlayerStats) (c k c' k' : String) (m : Metric) :
    (ps.AddMetric c k m).GetMetric c' k' =
      if c' = c ∧ k' = k then some m else ps.GetMetric c' k' := by
  by_cases hc : c' = c
  · subst hc
    cases hcat : getKey ps.categories c' with
    | none =>
      by_cases hk : k' = k
      · subst hk
        simp [PlayerStats.AddMetric, PlayerStats.GetMetric, hcat, getKey_setKey_self]
      · simp [PlayerStats.AddMetric, PlayerStats.GetMetric, hcat, getKey_setKey_self,
          getKey_setKey_ne _ _ _ _ hk, hk, Ne.symm hk, getKey]
    | some catMap =>
      by_cases hk : k' = k
      · subst hk
        simp [PlayerStats.AddMetric, PlayerStats.GetMetric, hcat, getKey_setKey_self]
      · simp [PlayerStats.AddMetric, PlayerStats.GetMetric, hcat, getKey_setKey_self,
          getKey_setKey_ne _ _ _ _ hk, hk]
  · simp [PlayerStats.AddMetric, PlayerStats.GetMetric, getKey_setKey_ne _ _ _ _ hc, hc]

/-- Behaviour of `IncrementIntMetric` at the incremented key: create at 1 when
absent, otherwise add 1 to the stored `IntValue` whatever the metric's type. -/
theorem IncrementIntMetric_GetMetric (ps : PlayerStats) (category key : String) :
    (ps.IncrementIntMetric category key).GetMetric category key =
      some (match ps.GetMetric category key with
            | none => intOneMetric
            | some m => { m with intValue := m.intValue + 1 }) := by
  cases hcat : getKey ps.categories category with
  | none =>
    simp [PlayerStats.IncrementIntMetric, PlayerStats.GetMetric, hcat, getKey_setKey_self]
  | some catMap =>
    cases hk : getKey catMap key with
    | none =>
      simp [PlayerStats.IncrementIntMetric, PlayerStats.GetMetric, hcat, hk, getKey_setKey_self]
    | some m =>
      simp [PlayerStats.IncrementIntMetric, PlayerStats.GetMetric, hcat, hk, getKey_setKey_self]

/-- `IncrementIntMetric` leaves every other (category, key) pair unchanged. -/
theorem IncrementIntMetric_GetMetric_ne (ps : PlayerStats) (category key c' k' : String)
    (h : ¬(c' = category ∧ k' = key)) :
    (ps.IncrementIntMetric category key).GetMetric c' k' = ps.GetMetric c' k' := by
  by_cases hc : c' = category
  · subst hc
    have hkne : k' ≠ key := fun hh => h ⟨rfl, hh⟩
    cases hcat : getKey ps.categories c' with
    | none =>
      simp [PlayerStats.IncrementIntMetric, PlayerStats.GetMetric, hcat, getKey_setKey_self,
        getKey_setKey_ne _ _ _ _ hkne, Ne.symm hkne, getKey]
    | some catMap =>
      cases hk : getKey catMap key with
      | none =>
        simp [PlayerStats.IncrementIntMetric, PlayerStats.GetMetric, hcat, hk,
          getKey_setKey_self, getKey_setKey_ne _ _ _ _ hkne]
      | some m =>
        simp [PlayerStats.IncrementIntMetric, PlayerStats.GetMetric, hcat, hk,
          getKey_setKey_self, getKey_setKey_ne _ _ _ _ hkne]
  · cases hcat : getKey ps.categories category with
    | none =>
      simp [PlayerStats.IncrementIntMetric, PlayerStats.GetMetric, hcat,
        getKey_setKey_ne _ _ _ _ hc]
    | some catMap =>
      cases hk : getKey catMap key with
      | none =>
        simp [PlayerStats.IncrementIntMetric, PlayerStats.GetMetric, hcat, hk,
          getKey_setKey_ne _ _ _ _ hc]
      | some m =>
        simp [PlayerStats.IncrementIntMetric, PlayerStats.GetMetric, hcat, hk,
          getKey_setKey_ne _ _ _ _ hc]

/-- An empty `PlayerStats`, as created by `NewPlayerStats`. -/
def emptyPlayerStats : PlayerStats := ⟨⟨1, "player"⟩, []⟩

/-- A stats record holding a string-typed metric at ("test_cat", "test_key"). -/
def psWithStringMetric : PlayerStats :=
  emptyPlayerStats.AddMetric "test_cat" "test_key"
    { Metric.zero with type := MetricString, stringValue := "hello" }

/-- C3 counterexample: calling `IncrementIntMetric` on a key holding a
string-typed metric does not fail and does not leave the store unchanged —
the source (part_007 lines 95-97) increments the `IntValue` field of the
existing metric regardless of its type, so the store changes and the metric
keeps its string type with `IntValue` bumped to 1.  This refutes the claim
that the operation "fails (reports an error, leaving the store unchanged)"
on a non-integer-typed metric. -/
theorem incrementInt_string_metric_counterexample :
    (psWithStringMetric.IncrementIntMetric "test_cat" "test_key") ≠ psWithStringMetric ∧
    (psWithStringMetric.IncrementIntMetric "test_cat" "test_key").GetMetric
        "test_cat" "test_key" =
      some { Metric.zero with type := MetricString, stringValue := "hello", intValue := 1 } := by
  constructor
  · decide
  · decide

/-- C3 (amended): `incrementInt` creates an integer-typed metric with value 1
when no metric exists at the key, and otherwise adds 1 to the stored metric's
`IntValue` field regardless of the existing metric's type; the operation has
no failure path and always updates the store at that key. -/
theorem incrementInt_spec (ps : PlayerStats) (category key : String) :
    (ps.IncrementIntMetric category key).GetMetric category key =
      some (match ps.GetMetric category key with
            | none => { Metric.zero with type := MetricInteger, intValue := 1 }
            | some m => { m with intValue := m.intValue + 1 }) :=
  IncrementIntMetric_GetMetric ps category key

/-! ## Demo-level statistics (source: `src/unnamed/part_007` lines 128-169) -/

/-- A player as delivered by the external demo parser: identity and team.
Only the fields the embedded detectors read are modelled (spec section 6). -/
structure GoPlayer where
  steamID64 : ℕ
  name : String
  team : ℤ
deriving DecidableEq

/-- Statistics for all players in a demo (source struct `DemoStats`). -/
structure DemoStats where
  players : List (ℕ × PlayerStats)
  tickRate : ℚ
  tickCount : ℤ
  demoName : String
  mapName : String
deriving DecidableEq

/-- Source `NewDemoStats`: empty player map, zero-valued metadata. -/
def NewDemoStats : DemoStats := ⟨[], 0, 0, "", ""⟩

/-- Source `NewPlayerStats`: stats with the player's identity and no metrics. -/
def NewPlayerStats (id : ℕ) (name : String) : PlayerStats := ⟨⟨id, name⟩, []⟩

/-- Map-insertion part of `GetOrCreatePlayerStats` /
`GetOrCreatePlayerStatsBySteamID`: create the entry if absent.  (The Go
functions then return a pointer into the map; mutations through that pointer
are embedded with `DemoStats.updatePlayer`.) -/
def DemoStats.ensurePlayer (ds : DemoStats) (id : ℕ) (name : String) : DemoStats :=
  match getKey ds.players id with
  | some _ => ds
  | none => { ds with players := ds.players ++ [(id, NewPlayerStats id name)] }

/-- Apply a mutation to the `PlayerStats` stored under `id` (no-op if the
entry is absent), embedding Go mutation through the map's pointer. -/
def DemoStats.updatePlayer (ds : DemoStats) (id : ℕ) (f : PlayerStats → PlayerStats) :
    DemoStats :=
  match getKey ds.players id with
  | some ps => { ds with players := setKey ds.players id (f ps) }
  | none => ds

theorem ensurePlayer_getKey_ne (ds : DemoStats) (id p : ℕ) (name : String) (h : p ≠ id) :
    getKey (ds.ensurePlayer id name).players p = getKey ds.players p := by
  unfold DemoStats.ensurePlayer
  cases hg : getKey ds.players id with
  | some ps => rfl
  | none => simp [getKey_append_ne _ _ _ _ h]

theorem updatePlayer_getKey_ne (ds : DemoStats) (id p : ℕ) (f : PlayerStats → PlayerStats)
    (h : p ≠ id) : getKey (ds.updatePlayer id f).players p = getKey ds.players p := by
  unfold DemoStats.updatePlayer
  cases hg : getKey ds.players id with
  | some ps => simp [getKey_setKey_ne _ _ _ _ h]
  | none => rfl

theorem getKey_append_self {κ α : Type} [DecidableEq κ] (l : List (κ × α)) (k : κ) (v : α)
    (h : getKey l k = none) : getKey (l ++ [(k, v)]) k = some v := by
  induction l with
  | nil => simp [getKey]
  | cons hd t ih =>
    obtain ⟨k0, v0⟩ := hd
    by_cases h0 : k0 = k
    · simp [getKey, h0] at h
    · simp [getKey, h0] at h ⊢
      exact ih h

theorem ensurePlayer_getKey_self (ds : DemoStats) (id : ℕ) (name : String) :
    getKey (ds.ensurePlayer id name).players id =
      some ((getKey ds.players id).getD (NewPlayerStats id name)) := by
  unfold DemoStats.ensurePlayer
  cases hg : getKey ds.players id with
  | some ps => simp [hg]
  | none => simp [hg, getKey_append_self _ _ _ hg]

theorem updatePlayer_getKey_self (ds : DemoStats) (id : ℕ) (f : PlayerStats → PlayerStats)
    (ps : PlayerStats) (h : getKey ds.players id = some ps) :
    getKey (ds.updatePlayer id f).players id = some (f ps) := by
  unfold DemoStats.updatePlayer
  simp [h, getKey_setKey_self]

/-! ## Composite cheat scorer (source: `src/unnamed/part_008`) -/

/-- Source helper `clamp01` (part_008 lines 44-53). -/
def clamp01 (value : ℚ) : ℚ :=
  if value < 0 then 0 else if value > 1 then 1 else value

/-- Extraction pattern of `calculateCheatLikelihood`: a float metric read with
a default used when the metric is absent (part_008 lines 57-87). -/
def PlayerStats.getFloatOr (ps : PlayerStats) (category key : String) (d : ℚ) : ℚ :=
  match ps.GetMetric category key with
  | some m => m.floatValue
  | none => d

/-- Integer metric read with a default (part_008 lines 57-87, 140-143). -/
def PlayerStats.getIntOr (ps : PlayerStats) (category key : String) (d : ℤ) : ℤ :=
  match ps.GetMetric category key with
  | some m => m.intValue
  | none => d

/-- String metric read with a default (part_008 lines 132-138). -/
def PlayerStats.getStringOr (ps : PlayerStats) (category key : String) (d : String) : String :=
  match ps.GetMetric category key with
  | some m => m.stringValue
  | none => d

/-- Headshot factor (part_008 lines 91-96): 0 below 30 kills, else
`clamp01((hsPercentage - 55) / 20)`. -/
def hsScoreOf (totalKills : ℤ) (hsPercentage : ℚ) : ℚ :=
  if 30 ≤ totalKills then clamp01 ((hsPercentage - 55) / 20) else 0

/-- Snap velocity factor (part_008 lines 98-103): 0 below 5 snaps, else
`clamp01((p95SnapVelocity - 2) / 1.5)`. -/
def snapScoreOf (snapCount : ℤ) (p95SnapVelocity : ℚ) : ℚ :=
  if 5 ≤ snapCount then clamp01 ((p95SnapVelocity - 2) / 1.5) else 0

/-- Reaction time factor (part_008 lines 105-110): 0 below 5 samples, else
`clamp01((120 - p10Reaction) / 60)`. -/
def rtScoreOf (reactionSamples : ℤ) (p10Reaction : ℚ) : ℚ :=
  if 5 ≤ reactionSamples then clamp01 ((120 - p10Reaction) / 60) else 0

/-- Weighted blend (part_008 line 125). -/
def cheatScoreOf (hsScore snapScore rtScore recoilScore : ℚ) : ℚ :=
  0.45 * hsScore + 0.25 * snapScore + 0.15 * rtScore + 0.15 * recoilScore

/-- Game-mode boosts and the 100-cap (part_008 lines 145-172): conditional
20 percent boosts for Wingman and Competitive, then clamp above at 100. -/
def boostedLikelihood (cheatLikelihood : ℚ) (gameMode : String) (totalKills roundCount : ℤ) :
    ℚ :=
  let cl1 := if gameMode = "Wingman" ∧ 15 < totalKills then cheatLikelihood * 1.2
             else cheatLikelihood
  let cl2 := if gameMode = "Competitive" ∧ 39 < totalKills ∧ roundCount ≤ 30 then cl1 * 1.2
             else cl1
  if 100 < cl2 then 100 else cl2

/-- A `Metric{Type: MetricFloat, FloatValue: v, Description: d}` literal. -/
def floatMetric (v : ℚ) (d : String) : Metric :=
  { Metric.zero with type := MetricFloat, floatValue := v, description := d }

/-- A `Metric{Type: MetricString, StringValue: s, Description: d}` literal. -/
def stringMetric (s d : String) : Metric :=
  { Metric.zero with type := MetricString, stringValue := s, description := d }

/-- A `Metric{Type: MetricPercentage, FloatValue: v, Description: d}` literal. -/
def percentMetric (v : ℚ) (d : String) : Metric :=
  { Metric.zero with type := MetricPercentage, floatValue := v, description := d }

/-- Source `calculateCheatLikelihood` (part_008 lines 56-221): extract the
stored metrics with zero/Competitive/30 defaults, compute the guarded
component scores, blend with weights 0.45/0.25/0.15/0.15, apply the game-mode
boosts and the 100-cap, write the explanatory metrics and the cheater flag,
and return the capped likelihood. -/
def calculateCheatLikelihood (ps : PlayerStats) : ℚ × PlayerStats :=
  let hsPercentage := ps.getFloatOr "kills" "headshot_percentage" 0
  let totalKills := ps.getIntOr "kills" "total_kills" 0
  let p95SnapVelocity := ps.getFloatOr "aiming" "p95_snap_velocity" 0
  let snapCount := ps.getIntOr "aiming" "snap_count" 0
  let p10Reaction := ps.getFloatOr "reaction" "p10_reaction_time" 0
  let reactionSamples := ps.getIntOr "reaction" "reaction_samples" 0
  let hsScore := hsScoreOf totalKills hsPercentage
  let snapScore := snapScoreOf snapCount p95SnapVelocity
  let rtScore := rtScoreOf reactionSamples p10Reaction
  let recoilScore := ps.getFloatOr "recoil" "recoil_score" 0
  let cheatScore := cheatScoreOf hsScore snapScore rtScore recoilScore
  let gameMode := ps.getStringOr "game_info" "game_mode" "Competitive"
  let roundCount := ps.getIntOr "game_info" "round_count" 30
  let ps1 := if gameMode = "Wingman" ∧ 15 < totalKills then
      ps.AddMetric "anti_cheat" "wingman_boost"
        (stringMetric "Yes" "Player has more than 15 kills in Wingman (20% boost applied)")
    else ps
  let ps2 := if gameMode = "Competitive" ∧ 39 < totalKills ∧ roundCount ≤ 30 then
      ps1.AddMetric "anti_cheat" "competitive_boost"
        (stringMetric "Yes" "Player has more than 39 kills in regulation time (20% boost applied)")
    else ps1
  let cheatLikelihood := boostedLikelihood (cheatScore * 100) gameMode totalKills roundCount
  let ps3 := ps2.AddMetric "anti_cheat" "hs_score"
    (floatMetric hsScore "Headshot-based cheat score component (0-1)")
  let ps4 := ps3.AddMetric "anti_cheat" "snap_score"
    (floatMetric snapScore "Snap velocity-based cheat score component (0-1)")
  let ps5 := ps4.AddMetric "anti_cheat" "reaction_score"
    (floatMetric rtScore "Reaction time-based cheat score component (0-1)")
  let ps6 := ps5.AddMetric "anti_cheat" "recoil_score"
    (floatMetric recoilScore "Recoil control-based cheat score component (0-1)")
  let ps7 := ps6.AddMetric "anti_cheat" "total_cheat_score"
    (floatMetric cheatScore "Total cheat score (0-1, at or above 0.55 flags as cheater)")
  let ps8 := if 55 ≤ cheatLikelihood then
      ps7.AddMetric "anti_cheat" "cheater"
        (stringMetric "Yes" "Player is flagged as a potential cheater")
    else
      ps7.AddMetric "anti_cheat" "cheater"
        (stringMetric "No" "Player is not flagged as a cheater")
  (cheatLikelihood, ps8)

/-- Per-player body of `CheatDetector.CollectFinalStats` (part_008 lines
30-42): compute the likelihood and store it as the `cheat_likelihood`
percentage metric. -/
def cheatDetectorFinalizePlayer (ps : PlayerStats) : PlayerStats :=
  let r := calculateCheatLikelihood ps
  r.2.AddMetric "anti_cheat" "cheat_likelihood"
    (percentMetric r.1 "Estimated likelihood of player cheating")

/-- Source `CheatDetector.CollectFinalStats` (part_008 lines 30-42). -/
def cheatDetectorCollectFinalStats (ds : DemoStats) : DemoStats :=
  { ds with players := ds.players.map fun e => (e.1, cheatDetectorFinalizePlayer e.2) }

/-! ## Text reporter (source: `src/unnamed/part_006`) -/

/-- Source helper `getMetricFloatValue` (part_006 lines 254-260). -/
def getMetricFloatValue (ps : PlayerStats) (category key : String) : ℚ :=
  match ps.GetMetric category key with
  | some m => m.floatValue
  | none => 0

/-- The Cheater column of `printPlayerRow` (part_006 lines 197-221): the row
initializes `cheatLikelihood` to 0, overwrites it with the stored
`cheat_likelihood` float when that metric is present among the displayed
keys, and prints "Yes" exactly when the value is at least 90. -/
def printPlayerRowCheater (ps : PlayerStats) : String :=
  let cheatLikelihood := getMetricFloatValue ps "anti_cheat" "cheat_likelihood"
  if 90 ≤ cheatLikelihood then "Yes" else "No"

theorem clamp01_nonneg (v : ℚ) : 0 ≤ clamp01 v := by
  unfold clamp01
  split_ifs <;> linarith

theorem clamp01_le_one (v : ℚ) : clamp01 v ≤ 1 := by
  unfold clamp01
  split_ifs <;> linarith

theorem hsScoreOf_nonneg (tk : ℤ) (p : ℚ) : 0 ≤ hsScoreOf tk p := by
  unfold hsScoreOf
  split_ifs
  · exact clamp01_nonneg _
  · exact le_refl 0

theorem hsScoreOf_le_one (tk : ℤ) (p : ℚ) : hsScoreOf tk p ≤ 1 := by
  unfold hsScoreOf
  split_ifs
  · exact clamp01_le_one _
  · exact zero_le_one

theorem snapScoreOf_nonneg (sc : ℤ) (p : ℚ) : 0 ≤ snapScoreOf sc p := by
  unfold snapScoreOf
  split_ifs
  · exact clamp01_nonneg _
  · exact le_refl 0

theorem snapScoreOf_le_one (sc : ℤ) (p : ℚ) : snapScoreOf sc p ≤ 1 := by
  unfold snapScoreOf
  split_ifs
  · exact clamp01_le_one _
  · exact zero_le_one

theorem rtScoreOf_nonneg (rs : ℤ) (p : ℚ) : 0 ≤ rtScoreOf rs p := by
  unfold rtScoreOf
  split_ifs
  · exact clamp01_nonneg _
  · exact le_refl 0

theorem rtScoreOf_le_one (rs : ℤ) (p : ℚ) : rtScoreOf rs p ≤ 1 := by
  unfold rtScoreOf
  split_ifs
  · exact clamp01_le_one _
  · exact zero_le_one

theorem cheatScoreOf_nonneg (h s r rc : ℚ) (hh : 0 ≤ h) (hs : 0 ≤ s) (hr : 0 ≤ r)
    (hrc : 0 ≤ rc) : 0 ≤ cheatScoreOf h s r rc := by
  unfold cheatScoreOf
  nlinarith

theorem cheatScoreOf_le_one (h s r rc : ℚ) (hh : h ≤ 1) (hs : s ≤ 1) (hr : r ≤ 1)
    (hrc : rc ≤ 1) : cheatScoreOf h s r rc ≤ 1 := by
  unfold cheatScoreOf
  nlinarith

theorem boostedLikelihood_nonneg (cl : ℚ) (mode : String) (tk rc : ℤ) (h : 0 ≤ cl) :
    0 ≤ boostedLikelihood cl mode tk rc := by
  unfold boostedLikelihood
  dsimp only
  split_ifs <;> linarith

theorem boostedLikelihood_le_100 (cl : ℚ) (mode : String) (tk rc : ℤ) :
    boostedLikelihood cl mode tk rc ≤ 100 := by
  unfold boostedLikelihood
  dsimp only
  split_ifs <;> linarith

/-- C1: at finalize the composite scorer computes the headshot component as
`clamp01((headshot% - 55) / 20)` for at least 30 kills and 0 otherwise, the
reaction component as `clamp01((120 - p10) / 60)` for at least 5 samples and
0 otherwise, blends the four components with weights 0.45/0.25/0.15/0.15
(which sum to 1), and reports `likelihood = 100 * total score` multiplied by
any game-mode boost and capped at 100; every component score lies in [0, 1]
(the recoil component is read back from the store, where the recoil detector
wrote a `clamp01` value, hence the [0, 1] hypotheses on it) and the reported
likelihood lies in [0, 100]. -/
theorem composite_scorer_components_and_likelihood (ps : PlayerStats)
    (hr0 : 0 ≤ ps.getFloatOr "recoil" "recoil_score" 0)
    (hr1 : ps.getFloatOr "recoil" "recoil_score" 0 ≤ 1) :
    hsScoreOf (ps.getIntOr "kills" "total_kills" 0)
        (ps.getFloatOr "kills" "headshot_percentage" 0)
      = (if 30 ≤ ps.getIntOr "kills" "total_kills" 0 then
          clamp01 ((ps.getFloatOr "kills" "headshot_percentage" 0 - 55) / 20) else 0)
    ∧ rtScoreOf (ps.getIntOr "reaction" "reaction_samples" 0)
        (ps.getFloatOr "reaction" "p10_reaction_time" 0)
      = (if 5 ≤ ps.getIntOr "reaction" "reaction_samples" 0 then
          clamp01 ((120 - ps.getFloatOr "reaction" "p10_reaction_time" 0) / 60) else 0)
    ∧ (0.45 + 0.25 + 0.15 + 0.15 : ℚ) = 1
    ∧ (calculateCheatLikelihood ps).1
      = boostedLikelihood
          (cheatScoreOf
            (hsScoreOf (ps.getIntOr "kills" "total_kills" 0)
              (ps.getFloatOr "kills" "headshot_percentage" 0))
            (snapScoreOf (ps.getIntOr "aiming" "snap_count" 0)
              (ps.getFloatOr "aiming" "p95_snap_velocity" 0))
            (rtScoreOf (ps.getIntOr "reaction" "reaction_samples" 0)
              (ps.getFloatOr "reaction" "p10_reaction_time" 0))
            (ps.getFloatOr "recoil" "recoil_score" 0) * 100)
          (ps.getStringOr "game_info" "game_mode" "Competitive")
          (ps.getIntOr "kills" "total_kills" 0)
          (ps.getIntOr "game_info" "round_count" 30)
    ∧ 0 ≤ hsScoreOf (ps.getIntOr "kills" "total_kills" 0)
        (ps.getFloatOr "kills" "headshot_percentage" 0)
    ∧ hsScoreOf (ps.getIntOr "kills" "total_kills" 0)
        (ps.getFloatOr "kills" "headshot_percentage" 0) ≤ 1
    ∧ 0 ≤ snapScoreOf (ps.getIntOr "aiming" "snap_count" 0)
        (ps.getFloatOr "aiming" "p95_snap_velocity" 0)
    ∧ snapScoreOf (ps.getIntOr "aiming" "snap_count" 0)
        (ps.getFloatOr "aiming" "p95_snap_velocity" 0) ≤ 1
    ∧ 0 ≤ rtScoreOf (ps.getIntOr "reaction" "reaction_samples" 0)
        (ps.getFloatOr "reaction" "p10_reaction_time" 0)
    ∧ rtScoreOf (ps.getIntOr "reaction" "reaction_samples" 0)
        (ps.getFloatOr "reaction" "p10_reaction_time" 0) ≤ 1
    ∧ 0 ≤ cheatScoreOf
        (hsScoreOf (ps.getIntOr "kills" "total_kills" 0)
          (ps.getFloatOr "kills" "headshot_percentage" 0))
        (snapScoreOf (ps.getIntOr "aiming" "snap_count" 0)
          (ps.getFloatOr "aiming" "p95_snap_velocity" 0))
        (rtScoreOf (ps.getIntOr "reaction" "reaction_samples" 0)
          (ps.getFloatOr "reaction" "p10_reaction_time" 0))
        (ps.getFloatOr "recoil" "recoil_score" 0)
    ∧ cheatScoreOf
        (hsScoreOf (ps.getIntOr "kills" "total_kills" 0)
          (ps.getFloatOr "kills" "headshot_percentage" 0))
        (snapScoreOf (ps.getIntOr "aiming" "snap_count" 0)
          (ps.getFloatOr "aiming" "p95_snap_velocity" 0))
        (rtScoreOf (ps.getIntOr "reaction" "reaction_samples" 0)
          (ps.getFloatOr "reaction" "p10_reaction_time" 0))
        (ps.getFloatOr "recoil" "recoil_score" 0) ≤ 1
    ∧ 0 ≤ (calculateCheatLikelihood ps).1
    ∧ (calculateCheatLikelihood ps).1 ≤ 100 := by
  have hcs0 : 0 ≤ cheatScoreOf
      (hsScoreOf (ps.getIntOr "kills" "total_kills" 0)
        (ps.getFloatOr "kills" "headshot_percentage" 0))
      (snapScoreOf (ps.getIntOr "aiming" "snap_count" 0)
        (ps.getFloatOr "aiming" "p95_snap_velocity" 0))
      (rtScoreOf (ps.getIntOr "reaction" "reaction_samples" 0)
        (ps.getFloatOr "reaction" "p10_reaction_time" 0))
      (ps.getFloatOr "recoil" "recoil_score" 0) :=
    cheatScoreOf_nonneg _ _ _ _ (hsScoreOf_nonneg _ _) (snapScoreOf_nonneg _ _)
      (rtScoreOf_nonneg _ _) hr0
  have hcs1 : cheatScoreOf
      (hsScoreOf (ps.getIntOr "kills" "total_kills" 0)
        (ps.getFloatOr "kills" "headshot_percentage" 0))
      (snapScoreOf (ps.getIntOr "aiming" "snap_count" 0)
        (ps.getFloatOr "aiming" "p95_snap_velocity" 0))
      (rtScoreOf (ps.getIntOr "reaction" "reaction_samples" 0)
        (ps.getFloatOr "reaction" "p10_reaction_time" 0))
      (ps.getFloatOr "recoil" "recoil_score" 0) ≤ 1 :=
    cheatScoreOf_le_one _ _ _ _ (hsScoreOf_le_one _ _) (snapScoreOf_le_one _ _)
      (rtScoreOf_le_one _ _) hr1
  refine ⟨rfl, rfl, by norm_num, rfl, hsScoreOf_nonneg _ _, hsScoreOf_le_one _ _,
    snapScoreOf_nonneg _ _, snapScoreOf_le_one _ _, rtScoreOf_nonneg _ _, rtScoreOf_le_one _ _,
    hcs0, hcs1, ?_, ?_⟩
  · exact boostedLikelihood_nonneg _ _ _ _ (by linarith)
  · exact boostedLikelihood_le_100 _ _ _ _

/-- Witness for C1 at the empty player-stats record (all metrics absent, so
the recoil component defaults to 0). -/
theorem composite_scorer_components_and_likelihood_witness :
    0 ≤ (calculateCheatLikelihood emptyPlayerStats).1 ∧
      (calculateCheatLikelihood emptyPlayerStats).1 ≤ 100 := by
  have h := composite_scorer_components_and_likelihood emptyPlayerStats (by decide) (by decide)
  exact h.2.2.2.2.2.2.2.2.2.2.2.2

/-- A `Metric{Type: MetricInteger, IntValue: v}` literal. -/
def intMetric (v : ℤ) : Metric := { Metric.zero with type := MetricInteger, intValue := v }

theorem cheater_flag_eq (ps : PlayerStats) :
    ((calculateCheatLikelihood ps).2.GetMetric "anti_cheat" "cheater").map Metric.stringValue
      = some (if 55 ≤ (calculateCheatLikelihood ps).1 then "Yes" else "No") := by
  unfold calculateCheatLikelihood
  dsimp only
  split_ifs <;> simp [GetMetric_AddMetric, stringMetric]

theorem final_likelihood_metric (ps : PlayerStats) :
    (cheatDetectorFinalizePlayer ps).GetMetric "anti_cheat" "cheat_likelihood"
      = some (percentMetric (calculateCheatLikelihood ps).1
          "Estimated likelihood of player cheating") := by
  unfold cheatDetectorFinalizePlayer
  simp [GetMetric_AddMetric]

theorem final_cheater_flag (ps : PlayerStats) :
    ((cheatDetectorFinalizePlayer ps).GetMetric "anti_cheat" "cheater").map Metric.stringValue
      = some (if 55 ≤ (calculateCheatLikelihood ps).1 then "Yes" else "No") := by
  unfold cheatDetectorFinalizePlayer
  dsimp only
  rw [GetMetric_AddMetric]
  simpa using cheater_flag_eq ps

/-- C2: the scorer stores the `cheater` flag as "Yes" exactly when the
computed likelihood is at least 55 (part_008 lines 205-218), the text
reporter's Cheater column prints "Yes" exactly when the stored
`cheat_likelihood` is at least 90 (part_006 lines 214-221), and therefore for
any player whose likelihood lies in [55, 90) the stored flag says "Yes"
while the reporter's column says "No". -/
theorem scorer_flag_vs_reporter_flag (ps : PlayerStats)
    (h55 : 55 ≤ (calculateCheatLikelihood ps).1)
    (h90 : (calculateCheatLikelihood ps).1 < 90) :
    ((cheatDetectorFinalizePlayer ps).GetMetric "anti_cheat" "cheater").map Metric.stringValue
      = some (if 55 ≤ (calculateCheatLikelihood ps).1 then "Yes" else "No")
    ∧ ((cheatDetectorFinalizePlayer ps).GetMetric "anti_cheat" "cheat_likelihood").map
        Metric.floatValue = some (calculateCheatLikelihood ps).1
    ∧ printPlayerRowCheater (cheatDetectorFinalizePlayer ps)
      = (if 90 ≤ getMetricFloatValue (cheatDetectorFinalizePlayer ps) "anti_cheat"
            "cheat_likelihood" then "Yes" else "No")
    ∧ ((cheatDetectorFinalizePlayer ps).GetMetric "anti_cheat" "cheater").map
        Metric.stringValue = some "Yes"
    ∧ printPlayerRowCheater (cheatDetectorFinalizePlayer ps) = "No" := by
  refine ⟨final_cheater_flag ps, ?_, rfl, ?_, ?_⟩
  · rw [final_likelihood_metric ps]
    rfl
  · rw [final_cheater_flag ps, if_pos h55]
  · unfold printPlayerRowCheater getMetricFloatValue
    rw [final_likelihood_metric ps]
    simp [percentMetric, Metric.zero, not_le.mpr h90]

/-- A player record whose computed likelihood is 84 (headshot and snap
components saturated at 1, competitive boost applied): inside [55, 90). -/
def psC2witness : PlayerStats :=
  (((emptyPlayerStats.AddMetric "kills" "headshot_percentage"
      (percentMetric 80 "")).AddMetric "kills" "total_kills"
      (intMetric 40)).AddMetric "aiming" "p95_snap_velocity"
      (floatMetric 4 "")).AddMetric "aiming" "snap_count" (intMetric 5)

/-- The returned likelihood, written as the composition of the named score
helpers (immediate from the definition). -/
theorem calculateCheatLikelihood_fst (ps : PlayerStats) :
    (calculateCheatLikelihood ps).1
      = boostedLikelihood
          (cheatScoreOf
            (hsScoreOf (ps.getIntOr "kills" "total_kills" 0)
              (ps.getFloatOr "kills" "headshot_percentage" 0))
            (snapScoreOf (ps.getIntOr "aiming" "snap_count" 0)
              (ps.getFloatOr "aiming" "p95_snap_velocity" 0))
            (rtScoreOf (ps.getIntOr "reaction" "reaction_samples" 0)
              (ps.getFloatOr "reaction" "p10_reaction_time" 0))
            (ps.getFloatOr "recoil" "recoil_score" 0) * 100)
          (ps.getStringOr "game_info" "game_mode" "Competitive")
          (ps.getIntOr "kills" "total_kills" 0)
          (ps.getIntOr "game_info" "round_count" 30) := rfl

theorem psC2witness_likelihood : (calculateCheatLikelihood psC2witness).1 = 84 := by
  have e1 : psC2witness.getFloatOr "kills" "headshot_percentage" 0 = 80 := rfl
  have e2 : psC2witness.getIntOr "kills" "total_kills" 0 = 40 := rfl
  have e3 : psC2witness.getFloatOr "aiming" "p95_snap_velocity" 0 = 4 := rfl
  have e4 : psC2witness.getIntOr "aiming" "snap_count" 0 = 5 := rfl
  have e5 : psC2witness.getFloatOr "reaction" "p10_reaction_time" 0 = 0 := rfl
  have e6 : psC2witness.getIntOr "reaction" "reaction_samples" 0 = 0 := rfl
  have e7 : psC2witness.getFloatOr "recoil" "recoil_score" 0 = 0 := rfl
  have e8 : psC2witness.getStringOr "game_info" "game_mode" "Competitive" = "Competitive" := rfl
  have e9 : psC2witness.getIntOr "game_info" "round_count" 30 = 30 := rfl
  rw [calculateCheatLikelihood_fst, e1, e2, e3, e4, e5, e6, e7, e8, e9]
  have hhs : hsScoreOf 40 80 = 1 := by norm_num [hsScoreOf, clamp01]
  have hsn : snapScoreOf 5 4 = 1 := by norm_num [snapScoreOf, clamp01]
  have hrt : rtScoreOf 0 0 = 0 := by norm_num [rtScoreOf]
  rw [hhs, hsn, hrt]
  have hcs : cheatScoreOf 1 1 0 0 = 0.7 := by norm_num [cheatScoreOf]
  rw [hcs]
  have hne : ("Competitive" : String) ≠ "Wingman" := by decide
  norm_num [boostedLikelihood, hne]

/-- Witness for C2: the stored flag and the displayed flag disagree at a
concrete player with likelihood 84. -/
theorem scorer_flag_vs_reporter_flag_witness :
    ((cheatDetectorFinalizePlayer psC2witness).GetMetric "anti_cheat" "cheater").map
        Metric.stringValue = some "Yes"
    ∧ printPlayerRowCheater (cheatDetectorFinalizePlayer psC2witness) = "No" := by
  have h := scorer_flag_vs_reporter_flag psC2witness
    (by rw [psC2witness_likelihood]; norm_num) (by rw [psC2witness_likelihood]; norm_num)
  exact ⟨h.2.2.2.1, h.2.2.2.2⟩

/-! ## Headshot detector (source: `src/unnamed/part_010`) -/

/-- A kill event as delivered by the parser: optional killer and victim
pointers plus the headshot flag. -/
structure KillEvent where
  killer : Option GoPlayer
  victim : Option GoPlayer
  isHeadshot : Bool
deriving DecidableEq

/-- The integer value of an optional metric, treating absence as 0. -/
def metricIntD (o : Option Metric) : ℤ :=
  match o with
  | some m => m.intValue
  | none => 0

/-- A kill counter of a player in the demo stats (absent entries read as 0). -/
def killCounter (ds : DemoStats) (id : ℕ) (key : String) : ℤ :=
  match getKey ds.players id with
  | some ps => metricIntD (ps.GetMetric "kills" key)
  | none => 0

/-- Source kill handler of `HeadshotCollector.Setup` (part_010 lines 21-43):
return early when killer or victim is nil, killer equals victim, or both are
on the same team; otherwise create the killer's stats entry if needed,
increment `total_kills`, and increment `headshot_kills` when the kill is a
headshot.  (Go compares the killer and victim pointers; since a pointer
equality implies equal team fields, comparing the player values is
extensionally equivalent given the team check.)  The source performs no check
that the identities are nonzero. -/
def headshotOnKill (ds : DemoStats) (e : KillEvent) : DemoStats :=
  match e.killer, e.victim with
  | some killer, some victim =>
      if killer = victim ∨ killer.team = victim.team then ds
      else
        let ds1 := ds.ensurePlayer killer.steamID64 killer.name
        ds1.updatePlayer killer.steamID64 fun ps =>
          let ps1 := ps.IncrementIntMetric "kills" "total_kills"
          if e.isHeadshot then ps1.IncrementIntMetric "kills" "headshot_kills" else ps1
  | _, _ => ds

theorem metricIntD_increment (ps : PlayerStats) (c key : String) :
    metricIntD ((ps.IncrementIntMetric c key).GetMetric c key)
      = metricIntD (ps.GetMetric c key) + 1 := by
  rw [IncrementIntMetric_GetMetric]
  cases ps.GetMetric c key <;> simp [metricIntD, intOneMetric, Metric.zero]

/-- C4 counterexample: a kill event whose killer has the invalid identity 0
(non-nil pointer, Steam ID 0) on a different team from the victim still
increments the killer's total-kill counter — the source checks nil, equality
and teams but never that the Steam IDs are nonzero.  This refutes the claim
that such an event changes no kill counters. -/
theorem headshot_zero_id_kill_counterexample :
    killCounter (headshotOnKill NewDemoStats ⟨some ⟨0, "bot", 2⟩, some ⟨5, "victim", 3⟩, false⟩)
        0 "total_kills" = 1
    ∧ headshotOnKill NewDemoStats ⟨some ⟨0, "bot", 2⟩, some ⟨5, "victim", 3⟩, false⟩
        ≠ NewDemoStats := by
  constructor
  · decide
  · decide

/-- C4 (amended): the headshot detector increments the killer's total-kill
counter (and the headshot-kill counter when flagged) exactly for kill events
whose killer and victim are both non-null, distinct and on different teams;
an event failing any of these three conditions leaves the demo stats
unchanged.  (No nonzero-identity condition: the source never checks the
Steam IDs.) -/
theorem headshot_kill_counters (ds : DemoStats) (e : KillEvent) :
    (∀ killer victim : GoPlayer, e.killer = some killer → e.victim = some victim →
      killer ≠ victim → killer.team ≠ victim.team →
        killCounter (headshotOnKill ds e) killer.steamID64 "total_kills"
            = killCounter ds killer.steamID64 "total_kills" + 1
        ∧ killCounter (headshotOnKill ds e) killer.steamID64 "headshot_kills"
            = killCounter ds killer.steamID64 "headshot_kills"
              + (if e.isHeadshot then 1 else 0))
    ∧ ((e.killer = none ∨ e.victim = none
        ∨ (∃ p, e.killer = some p ∧ e.victim = some p)
        ∨ (∃ k v, e.killer = some k ∧ e.victim = some v ∧ k.team = v.team)) →
      headshotOnKill ds e = ds) := by
  constructor
  · intro killer victim hk hv hne hteam
    have hcond : ¬(killer = victim ∨ killer.team = victim.team) := by
      push_neg
      exact ⟨hne, hteam⟩
    have hentry : getKey (ds.ensurePlayer killer.steamID64 killer.name).players
        killer.steamID64 = some ((getKey ds.players killer.steamID64).getD
          (NewPlayerStats killer.steamID64 killer.name)) :=
      ensurePlayer_getKey_self ds killer.steamID64 killer.name
    set entry := (getKey ds.players killer.steamID64).getD
      (NewPlayerStats killer.steamID64 killer.name) with hentrydef
    have hbase_total : metricIntD (entry.GetMetric "kills" "total_kills")
        = killCounter ds killer.steamID64 "total_kills" := by
      unfold killCounter
      cases hds : getKey ds.players killer.steamID64 with
      | some ps => simp [hentrydef, hds]
      | none => simp [hentrydef, hds, NewPlayerStats, PlayerStats.GetMetric, getKey, metricIntD]
    have hbase_hs : metricIntD (entry.GetMetric "kills" "headshot_kills")
        = killCounter ds killer.steamID64 "headshot_kills" := by
      unfold killCounter
      cases hds : getKey ds.players killer.steamID64 with
      | some ps => simp [hentrydef, hds]
      | none => simp [hentrydef, hds, NewPlayerStats, PlayerStats.GetMetric, getKey, metricIntD]
    have hupd : getKey (headshotOnKill ds e).players killer.steamID64
        = some (let ps1 := entry.IncrementIntMetric "kills" "total_kills"
                if e.isHeadshot then ps1.IncrementIntMetric "kills" "headshot_kills" else ps1) := by
      rw [show headshotOnKill ds e
          = (ds.ensurePlayer killer.steamID64 killer.name).updatePlayer killer.steamID64
              (fun ps =>
                let ps1 := ps.IncrementIntMetric "kills" "total_kills"
                if e.isHeadshot then ps1.IncrementIntMetric "kills" "headshot_kills" else ps1) by
        simp [headshotOnKill, hk, hv, hcond]]
      exact updatePlayer_getKey_self _ _ _ _ hentry
    cases hhs : e.isHeadshot with
    | false =>
      constructor
      · unfold killCounter
        rw [hupd]
        simp only [hhs, if_false, Bool.false_eq_true]
        rw [metricIntD_increment, hbase_total]
        rfl
      · unfold killCounter
        rw [hupd]
        simp only [hhs, if_false, Bool.false_eq_true]
        rw [IncrementIntMetric_GetMetric_ne _ _ _ _ _ (by decide), hbase_hs]
        simp [killCounter]
    | true =>
      constructor
      · unfold killCounter
        rw [hupd]
        simp only [hhs, if_true]
        rw [IncrementIntMetric_GetMetric_ne _ _ _ _ _ (by decide),
          metricIntD_increment, hbase_total]
        rfl
      · unfold killCounter
        rw [hupd]
        simp only [hhs, if_true]
        rw [metricIntD_increment, IncrementIntMetric_GetMetric_ne _ _ _ _ _ (by decide),
          hbase_hs]
        simp [killCounter]
  · intro h
    rcases h with h | h | ⟨p, hk, hv⟩ | ⟨k, v, hk, hv, ht⟩
    · cases hv : e.victim <;> simp [headshotOnKill, h, hv]
    · cases hk : e.killer <;> simp [headshotOnKill, h, hk]
    · simp [headshotOnKill, hk, hv]
    · simp [headshotOnKill, hk, hv, ht]

/-- Witness for C4 at a concrete headshot kill between valid players 7 and 8
on different teams. -/
theorem headshot_kill_counters_witness :
    killCounter (headshotOnKill NewDemoStats ⟨some ⟨7, "k", 2⟩, some ⟨8, "v", 3⟩, true⟩)
        7 "total_kills"
      = killCounter NewDemoStats 7 "total_kills" + 1
    ∧ killCounter (headshotOnKill NewDemoStats ⟨some ⟨7, "k", 2⟩, some ⟨8, "v", 3⟩, true⟩)
        7 "headshot_kills"
      = killCounter NewDemoStats 7 "headshot_kills"
        + (if (true : Bool) then 1 else 0) :=
  (headshot_kill_counters NewDemoStats ⟨some ⟨7, "k", 2⟩, some ⟨8, "v", 3⟩, true⟩).1
    ⟨7, "k", 2⟩ ⟨8, "v", 3⟩ rfl rfl (by decide) (by decide)

/-! ## Game mode collector (source: `src/pkg/stats/game_mode_collector.go`) -/

/-- The `Metric{Type: MetricInteger, IntValue: roundCount, Description: ...}`
written as `round_count` (game_mode_collector.go lines 38-42). -/
def gameInfoMetric (roundCount : ℤ) : Metric :=
  ⟨MetricInteger, 0, roundCount, 0, "", "Number of rounds played"⟩

theorem getKey_map_value {κ α β : Type} [DecidableEq κ] (l : List (κ × α)) (g : α → β)
    (k : κ) : getKey (l.map fun e => (e.1, g e.2)) k = (getKey l k).map g := by
  induction l with
  | nil => simp [getKey]
  | cons hd t ih =>
    obtain ⟨k0, v0⟩ := hd
    by_cases h0 : k0 = k
    · simp [getKey, h0]
    · simp [getKey, h0, ih]

theorem setKey_length_of_some {κ α : Type} [DecidableEq κ] (l : List (κ × α)) (k : κ)
    (v v' : α) (h : getKey l k = some v') : (setKey l k v).length = l.length := by
  induction l with
  | nil => simp [getKey] at h
  | cons hd t ih =>
    obtain ⟨k0, v0⟩ := hd
    by_cases h0 : k0 = k
    · simp [setKey, h0]
    · simp [getKey, h0] at h
      simp [setKey, h0, ih h]

theorem updatePlayer_length (ds : DemoStats) (id : ℕ) (f : PlayerStats → PlayerStats) :
    (ds.updatePlayer id f).players.length = ds.players.length := by
  unfold DemoStats.updatePlayer
  cases hg : getKey ds.players id with
  | some ps => simp [setKey_length_of_some _ _ _ _ hg]
  | none => rfl

theorem ensurePlayer_length (ds : DemoStats) (id : ℕ) (name : String) :
    (ds.ensurePlayer id name).players.length
      = (if getKey ds.players id = none then ds.players.length + 1 else ds.players.length) := by
  unfold DemoStats.ensurePlayer
  cases hg : getKey ds.players id with
  | some ps => simp [hg]
  | none => simp [hg]

/-- The mode write performed for the sentinel (game_mode_collector.go lines
58-70): Wingman or Competitive according to the flag. -/
def gameModeWriteMode (isWingman : Bool) (ps : PlayerStats) : PlayerStats :=
  if isWingman then
    ps.AddMetric "game_info" "game_mode" (stringMetric "Wingman" "Detected game mode")
  else
    ps.AddMetric "game_info" "game_mode" (stringMetric "Competitive" "Detected game mode")

/-- The per-player writes of the final loop (game_mode_collector.go lines
72-89): round count, then the detected mode. -/
def gameModeWritePlayer (isWingman : Bool) (roundCount : ℤ) (ps : PlayerStats) : PlayerStats :=
  gameModeWriteMode isWingman (ps.AddMetric "game_info" "round_count" (gameInfoMetric roundCount))

/-- Source `GameModeCollector.CollectFinalStats` (game_mode_collector.go lines
36-90): create the sentinel pseudo-player 0 lazily, store the round count on
it, classify the match as Wingman exactly when the player-entry count
(sentinel included, since `len(demoStats.Players)` is read after the
sentinel's creation) is at most 4, store the mode on the sentinel, and then
write the round count and mode to every player entry. -/
def gameModeCollectFinalStats (ds : DemoStats) (roundCount : ℤ) : DemoStats :=
  let globalCreated := ds.ensurePlayer 0 "Unknown"
  let ds2 := globalCreated.updatePlayer 0 fun ps =>
    ps.AddMetric "game_info" "round_count" (gameInfoMetric roundCount)
  let playerCount := ds2.players.length
  let isWingman : Bool := decide (playerCount ≤ 4)
  let ds3 := ds2.updatePlayer 0 (gameModeWriteMode isWingman)
  let newPlayers := ds3.players.map fun e => (e.1, gameModeWritePlayer isWingman roundCount e.2)
  { ds3 with players := newPlayers }

theorem gameModeWritePlayer_metrics (isWingman : Bool) (roundCount : ℤ) (ps : PlayerStats) :
    ((gameModeWritePlayer isWingman roundCount ps).GetMetric "game_info" "game_mode").map
        Metric.stringValue = some (if isWingman then "Wingman" else "Competitive")
    ∧ ((gameModeWritePlayer isWingman roundCount ps).GetMetric "game_info" "round_count").map
        Metric.intValue = some roundCount := by
  cases isWingman with
  | false =>
    simp [gameModeWritePlayer, gameModeWriteMode, GetMetric_AddMetric, stringMetric,
      gameInfoMetric, Metric.zero]
  | true =>
    simp [gameModeWritePlayer, gameModeWriteMode, GetMetric_AddMetric, stringMetric,
      gameInfoMetric, Metric.zero]

/-- C10: the game-mode collector creates the sentinel pseudo-player 0 before
counting, classifies the match as Wingman exactly when the entry count
including the sentinel is at most 4, writes the mode string and round count
to the sentinel and every player, and hence a match with exactly 4 real
players (no id-0 entry) is classified Competitive. -/
theorem game_mode_classification (ds : DemoStats) (roundCount : ℤ) :
    (∀ pid ps, getKey (gameModeCollectFinalStats ds roundCount).players pid = some ps →
        (ps.GetMetric "game_info" "game_mode").map Metric.stringValue
          = some (if (ds.ensurePlayer 0 "Unknown").players.length ≤ 4 then "Wingman"
                  else "Competitive")
        ∧ (ps.GetMetric "game_info" "round_count").map Metric.intValue = some roundCount)
    ∧ ((getKey (gameModeCollectFinalStats ds roundCount).players 0).isSome = true)
    ∧ ((ds.ensurePlayer 0 "Unknown").players.length
        = (if getKey ds.players 0 = none then ds.players.length + 1 else ds.players.length))
    ∧ (ds.players.length = 4 → getKey ds.players 0 = none →
        ∀ pid ps, getKey (gameModeCollectFinalStats ds roundCount).players pid = some ps →
          (ps.GetMetric "game_info" "game_mode").map Metric.stringValue = some "Competitive") := by
  have hlen : ((ds.ensurePlayer 0 "Unknown").updatePlayer 0 fun ps =>
      ps.AddMetric "game_info" "round_count" (gameInfoMetric roundCount)).players.length
      = (ds.ensurePlayer 0 "Unknown").players.length := updatePlayer_length _ _ _
  have hmain : ∀ pid ps,
      getKey (gameModeCollectFinalStats ds roundCount).players pid = some ps →
      (ps.GetMetric "game_info" "game_mode").map Metric.stringValue
        = some (if (ds.ensurePlayer 0 "Unknown").players.length ≤ 4 then "Wingman"
                else "Competitive")
      ∧ (ps.GetMetric "game_info" "round_count").map Metric.intValue = some roundCount := by
    intro pid ps hps
    unfold gameModeCollectFinalStats at hps
    dsimp only at hps
    rw [getKey_map_value] at hps
    obtain ⟨ps0, hg0, hfx⟩ := Option.map_eq_some'.mp hps
    subst hfx
    have hdec : (decide (((ds.ensurePlayer 0 "Unknown").updatePlayer 0 fun ps =>
        ps.AddMetric "game_info" "round_count" (gameInfoMetric roundCount)).players.length ≤ 4))
        = decide ((ds.ensurePlayer 0 "Unknown").players.length ≤ 4) := by rw [hlen]
    rw [hdec]
    have h := gameModeWritePlayer_metrics
      (decide ((ds.ensurePlayer 0 "Unknown").players.length ≤ 4)) roundCount ps0
    refine ⟨?_, h.2⟩
    rw [h.1]
    by_cases hw : (ds.ensurePlayer 0 "Unknown").players.length ≤ 4
    · simp [hw]
    · simp [hw]
  refine ⟨hmain, ?_, ensurePlayer_length ds 0 "Unknown", ?_⟩
  · unfold gameModeCollectFinalStats
    dsimp only
    rw [getKey_map_value]
    have hps2 : getKey ((ds.ensurePlayer 0 "Unknown").updatePlayer 0 fun ps =>
        ps.AddMetric "game_info" "round_count" (gameInfoMetric roundCount)).players 0
        = some (((getKey ds.players 0).getD (NewPlayerStats 0 "Unknown")).AddMetric
            "game_info" "round_count" (gameInfoMetric roundCount)) :=
      updatePlayer_getKey_self _ _ _ _ (ensurePlayer_getKey_self ds 0 "Unknown")
    rw [updatePlayer_getKey_self _ _ _ _ hps2]
    rfl
  · intro h4 h0 pid ps hps
    have := (hmain pid ps hps).1
    rw [ensurePlayer_length, if_pos h0, h4] at this
    simpa using this

/-- A demo with exactly four real players (ids 1-4, no sentinel). -/
def dsFourPlayers : DemoStats :=
  ⟨[(1, NewPlayerStats 1 "a"), (2, NewPlayerStats 2 "b"), (3, NewPlayerStats 3 "c"),
    (4, NewPlayerStats 4 "d")], 64, 0, "", ""⟩

/-- Witness for C10: with exactly 4 real players the detected mode is
Competitive, not Wingman. -/
theorem game_mode_classification_witness :
    ((getKey (gameModeCollectFinalStats dsFourPlayers 12).players 1).bind
      fun ps => ps.GetMetric "game_info" "game_mode").map Metric.stringValue
      = some "Competitive" := by
  have h := (game_mode_classification dsFourPlayers 12).2.2.2 rfl rfl
  cases hg : getKey (gameModeCollectFinalStats dsFourPlayers 12).players 1 with
  | none => exact absurd hg (by decide)
  | some ps => simpa using h 1 ps hg

/-! ## Weapon usage collector (source: `src/pkg/stats/collectors.go`)

The currently-held item is external parser data (spec section 6); the
collector only uses its three-way classification nil / knife / other
(collectors.go lines 95-107, helper `isKnife` lines 173-185), so a frame
observation carries that classification directly. -/

/-- Classification of a player's active weapon used by `CollectFrame`. -/
inductive HeldItem where
  | noWeapon
  | knife
  | other
deriving DecidableEq

/-- One player's snapshot within a frame: identity plus held-item class. -/
structure FrameObs where
  steamID64 : ℕ
  name : String
  held : HeldItem
deriving DecidableEq

/-- Per-player body of `WeaponUsageCollector.CollectFrame` (collectors.go
lines 81-108): skip id 0, create the stats entry, count the tick and the
matching held-item counter. -/
def weaponUsageObs (ds : DemoStats) (obs : FrameObs) : DemoStats :=
  if obs.steamID64 = 0 then ds
  else
    let ds1 := ds.ensurePlayer obs.steamID64 obs.name
    ds1.updatePlayer obs.steamID64 fun ps =>
      let ps1 := ps.IncrementIntMetric "weapons" "total_ticks"
      match obs.held with
      | HeldItem.noWeapon => ps1.IncrementIntMetric "weapons" "no_weapon_ticks"
      | HeldItem.knife => ps1.IncrementIntMetric "weapons" "knife_ticks"
      | HeldItem.other => ps1.IncrementIntMetric "weapons" "non_knife_ticks"

/-- Source `WeaponUsageCollector.CollectFrame` over one frame's players. -/
def weaponUsageCollectFrame (ds : DemoStats) (frame : List FrameObs) : DemoStats :=
  frame.foldl weaponUsageObs ds

/-- The tick-by-tick run of the collector over a whole replay. -/
def weaponUsageRun (ds : DemoStats) (frames : List (List FrameObs)) : DemoStats :=
  frames.foldl weaponUsageCollectFrame ds

/-- Per-player body of `WeaponUsageCollector.CollectFinalStats`
(collectors.go lines 112-169): skip players with an absent or zero
`total_ticks`; otherwise write each of the three percentages whose tick
counter is present.  The source's trailing validation block (lines 149-168)
reads the three percentages and checks their sum but writes nothing, so it
has no effect on the state; `sumWeaponPercentages` below reproduces the sum
it computes. -/
def weaponUsageFinalizePlayer (ps : PlayerStats) : PlayerStats :=
  match ps.GetMetric "weapons" "total_ticks" with
  | none => ps
  | some totalTicks =>
    if totalTicks.intValue = 0 then ps
    else
      let ps1 := match ps.GetMetric "weapons" "knife_ticks" with
        | some kt => ps.AddMetric "weapons" "knife_percentage"
            (percentMetric ((kt.intValue : ℚ) / (totalTicks.intValue : ℚ) * 100)
              "Percentage of time with knife equipped")
        | none => ps
      let ps2 := match ps1.GetMetric "weapons" "non_knife_ticks" with
        | some nkt => ps1.AddMetric "weapons" "non_knife_percentage"
            (percentMetric ((nkt.intValue : ℚ) / (totalTicks.intValue : ℚ) * 100)
              "Percentage of time with non-knife weapons equipped")
        | none => ps1
      match ps2.GetMetric "weapons" "no_weapon_ticks" with
      | some nwt => ps2.AddMetric "weapons" "no_weapon_percentage"
          (percentMetric ((nwt.intValue : ℚ) / (totalTicks.intValue : ℚ) * 100)
            "Percentage of time with no weapon equipped")
      | none => ps2

/-- Source `WeaponUsageCollector.CollectFinalStats` over all players. -/
def weaponUsageCollectFinalStats (ds : DemoStats) : DemoStats :=
  { ds with players := ds.players.map fun e => (e.1, weaponUsageFinalizePlayer e.2) }

/-- A full run of the collector: frames, then finalize. -/
def weaponUsageRunAll (ds : DemoStats) (frames : List (List FrameObs)) : DemoStats :=
  weaponUsageCollectFinalStats (weaponUsageRun ds frames)

/-- The percentage sum computed by the source's validation block
(collectors.go lines 149-164), absent percentages defaulting to 0. -/
def sumWeaponPercentages (ps : PlayerStats) : ℚ :=
  ps.getFloatOr "weapons" "knife_percentage" 0
    + ps.getFloatOr "weapons" "non_knife_percentage" 0
    + ps.getFloatOr "weapons" "no_weapon_percentage" 0

/-- A weapons-category tick counter, absent metrics reading as 0. -/
def weaponCnt (ps : PlayerStats) (key : String) : ℤ :=
  metricIntD (ps.GetMetric "weapons" key)

/-- Invariant maintained by the frame phase: the tick counters of each
player split the total, and no percentage metric has been written yet. -/
def WInv (ps : PlayerStats) : Prop :=
  weaponCnt ps "total_ticks"
      = weaponCnt ps "knife_ticks" + weaponCnt ps "non_knife_ticks"
        + weaponCnt ps "no_weapon_ticks"
  ∧ ps.GetMetric "weapons" "knife_percentage" = none
  ∧ ps.GetMetric "weapons" "non_knife_percentage" = none
  ∧ ps.GetMetric "weapons" "no_weapon_percentage" = none

theorem weaponCnt_inc_self (ps : PlayerStats) (key : String) :
    weaponCnt (ps.IncrementIntMetric "weapons" key) key = weaponCnt ps key + 1 :=
  metricIntD_increment ps "weapons" key

theorem weaponCnt_inc_ne (ps : PlayerStats) (key key' : String) (h : key' ≠ key) :
    weaponCnt (ps.IncrementIntMetric "weapons" key) key' = weaponCnt ps key' := by
  unfold weaponCnt
  rw [IncrementIntMetric_GetMetric_ne ps "weapons" key "weapons" key' fun hh => h hh.2]

theorem WInv_new (id : ℕ) (name : String) : WInv (NewPlayerStats id name) := by
  refine ⟨?_, rfl, rfl, rfl⟩
  rfl

theorem weaponCnt_inc (ps : PlayerStats) (key key' : String) :
    weaponCnt (ps.IncrementIntMetric "weapons" key) key'
      = weaponCnt ps key' + (if key' = key then 1 else 0) := by
  by_cases h : key' = key
  · subst h
    rw [weaponCnt_inc_self]
    simp
  · rw [weaponCnt_inc_ne _ _ _ h]
    simp [h]

theorem WInv_double_inc (ps : PlayerStats) (key : String)
    (hk : key = "knife_ticks" ∨ key = "non_knife_ticks" ∨ key = "no_weapon_ticks")
    (h : WInv ps) :
    WInv ((ps.IncrementIntMetric "weapons" "total_ticks").IncrementIntMetric "weapons" key) := by
  obtain ⟨heq, hp1, hp2, hp3⟩ := h
  refine ⟨?_, ?_, ?_, ?_⟩
  · rcases hk with h | h | h <;> subst h <;> simp only [weaponCnt_inc] <;> simp <;> omega
  · rcases hk with h | h | h <;> subst h <;>
      rw [IncrementIntMetric_GetMetric_ne _ _ _ _ _ (by decide),
        IncrementIntMetric_GetMetric_ne _ _ _ _ _ (by decide)] <;> exact hp1
  · rcases hk with h | h | h <;> subst h <;>
      rw [IncrementIntMetric_GetMetric_ne _ _ _ _ _ (by decide),
        IncrementIntMetric_GetMetric_ne _ _ _ _ _ (by decide)] <;> exact hp2
  · rcases hk with h | h | h <;> subst h <;>
      rw [IncrementIntMetric_GetMetric_ne _ _ _ _ _ (by decide),
        IncrementIntMetric_GetMetric_ne _ _ _ _ _ (by decide)] <;> exact hp3

theorem WInv_obsUpdate (ps : PlayerStats) (held : HeldItem) (h : WInv ps) :
    WInv (match held with
          | HeldItem.noWeapon =>
              (ps.IncrementIntMetric "weapons" "total_ticks").IncrementIntMetric "weapons"
                "no_weapon_ticks"
          | HeldItem.knife =>
              (ps.IncrementIntMetric "weapons" "total_ticks").IncrementIntMetric "weapons"
                "knife_ticks"
          | HeldItem.other =>
              (ps.IncrementIntMetric "weapons" "total_ticks").IncrementIntMetric "weapons"
                "non_knife_ticks") := by
  cases held with
  | noWeapon => exact WInv_double_inc ps _ (by simp) h
  | knife => exact WInv_double_inc ps _ (by simp) h
  | other => exact WInv_double_inc ps _ (by simp) h

theorem WInv_step (ds : DemoStats) (obs : FrameObs)
    (h : ∀ pid ps, getKey ds.players pid = some ps → WInv ps) :
    ∀ pid ps, getKey (weaponUsageObs ds obs).players pid = some ps → WInv ps := by
  intro pid ps hps
  unfold weaponUsageObs at hps
  by_cases h0 : obs.steamID64 = 0
  · rw [if_pos h0] at hps
    exact h pid ps hps
  · rw [if_neg h0] at hps
    dsimp only at hps
    by_cases hpid : pid = obs.steamID64
    · subst hpid
      rw [updatePlayer_getKey_self _ _ _ _ (ensurePlayer_getKey_self ds _ _)] at hps
      have hentry : WInv ((getKey ds.players obs.steamID64).getD
          (NewPlayerStats obs.steamID64 obs.name)) := by
        cases hds : getKey ds.players obs.steamID64 with
        | some ps0 => simpa [hds] using h obs.steamID64 ps0 hds
        | none => simpa [hds] using WInv_new obs.steamID64 obs.name
      have := WInv_obsUpdate _ obs.held hentry
      simp only [Option.some_inj] at hps
      rw [← hps]
      exact this
    · rw [updatePlayer_getKey_ne _ _ _ _ hpid, ensurePlayer_getKey_ne _ _ _ _ hpid] at hps
      exact h pid ps hps

theorem WInv_frame (frame : List FrameObs) :
    ∀ ds : DemoStats, (∀ pid ps, getKey ds.players pid = some ps → WInv ps) →
    ∀ pid ps, getKey (weaponUsageCollectFrame ds frame).players pid = some ps → WInv ps := by
  induction frame with
  | nil => exact fun ds h => h
  | cons obs t ih =>
    intro ds h
    exact ih (weaponUsageObs ds obs) (WInv_step ds obs h)

theorem WInv_run (frames : List (List FrameObs)) :
    ∀ ds : DemoStats, (∀ pid ps, getKey ds.players pid = some ps → WInv ps) →
    ∀ pid ps, getKey (weaponUsageRun ds frames).players pid = some ps → WInv ps := by
  induction frames with
  | nil => exact fun ds h => h
  | cons frame t ih =>
    intro ds h
    exact ih (weaponUsageCollectFrame ds frame) (WInv_frame frame ds h)

theorem finalize_sum (ps : PlayerStats) (hinv : WInv ps) (m : Metric)
    (hm : ps.GetMetric "weapons" "total_ticks" = some m) (hnz : m.intValue ≠ 0) :
    sumWeaponPercentages (weaponUsageFinalizePlayer ps) = 100 := by
  obtain ⟨heq, hp1, hp2, hp3⟩ := hinv
  have htv : weaponCnt ps "total_ticks" = m.intValue := by
    rw [weaponCnt, hm]
    rfl
  have htq : (m.intValue : ℚ) ≠ 0 := Int.cast_ne_zero.mpr hnz
  unfold weaponUsageFinalizePlayer
  rw [hm]
  dsimp only
  rw [if_neg hnz]
  cases hk : ps.GetMetric "weapons" "knife_ticks" with
  | some kt =>
    have hkv : weaponCnt ps "knife_ticks" = kt.intValue := by
      rw [weaponCnt, hk]
      rfl
    dsimp only
    rw [show (ps.AddMetric "weapons" "knife_percentage"
        (percentMetric ((kt.intValue : ℚ) / (m.intValue : ℚ) * 100)
          "Percentage of time with knife equipped")).GetMetric "weapons" "non_knife_ticks"
        = ps.GetMetric "weapons" "non_knife_ticks" by simp [GetMetric_AddMetric]]
    cases hnk : ps.GetMetric "weapons" "non_knife_ticks" with
    | some nkt =>
      have hnkv : weaponCnt ps "non_knife_ticks" = nkt.intValue := by
        rw [weaponCnt, hnk]
        rfl
      dsimp only
      rw [show ((ps.AddMetric "weapons" "knife_percentage"
          (percentMetric ((kt.intValue : ℚ) / (m.intValue : ℚ) * 100)
            "Percentage of time with knife equipped")).AddMetric "weapons"
            "non_knife_percentage"
          (percentMetric ((nkt.intValue : ℚ) / (m.intValue : ℚ) * 100)
            "Percentage of time with non-knife weapons equipped")).GetMetric "weapons"
          "no_weapon_ticks" = ps.GetMetric "weapons" "no_weapon_ticks" by
        simp [GetMetric_AddMetric]]
      cases hnw : ps.GetMetric "weapons" "no_weapon_ticks" with
      | some nwt =>
        have hnwv : weaponCnt ps "no_weapon_ticks" = nwt.intValue := by
          rw [weaponCnt, hnw]
          rfl
        simp only [sumWeaponPercentages, PlayerStats.getFloatOr, GetMetric_AddMetric,
          percentMetric, Metric.zero]
        simp
        have hsum : (kt.intValue : ℚ) + nkt.intValue + nwt.intValue = m.intValue := by
          exact_mod_cast by omega
        field_simp
        linarith [hsum]
      | none =>
        have hnwv : weaponCnt ps "no_weapon_ticks" = 0 := by
          rw [weaponCnt, hnw]
          rfl
        simp only [sumWeaponPercentages, PlayerStats.getFloatOr, GetMetric_AddMetric,
          percentMetric, Metric.zero]
        simp [hp3]
        have hsum : (kt.intValue : ℚ) + nkt.intValue = m.intValue := by
          exact_mod_cast by omega
        field_simp
        linarith [hsum]
    | none =>
      have hnkv : weaponCnt ps "non_knife_ticks" = 0 := by
        rw [weaponCnt, hnk]
        rfl
      dsimp only
      rw [show (ps.AddMetric "weapons" "knife_percentage"
          (percentMetric ((kt.intValue : ℚ) / (m.intValue : ℚ) * 100)
            "Percentage of time with knife equipped")).GetMetric "weapons" "no_weapon_ticks"
          = ps.GetMetric "weapons" "no_weapon_ticks" by simp [GetMetric_AddMetric]]
      cases hnw : ps.GetMetric "weapons" "no_weapon_ticks" with
      | some nwt =>
        have hnwv : weaponCnt ps "no_weapon_ticks" = nwt.intValue := by
          rw [weaponCnt, hnw]
          rfl
        simp only [sumWeaponPercentages, PlayerStats.getFloatOr, GetMetric_AddMetric,
          percentMetric, Metric.zero]
        simp [hp2]
        have hsum : (kt.intValue : ℚ) + nwt.intValue = m.intValue := by
          exact_mod_cast by omega
        field_simp
        linarith [hsum]
      | none =>
        have hnwv : weaponCnt ps "no_weapon_ticks" = 0 := by
          rw [weaponCnt, hnw]
          rfl
        simp only [sumWeaponPercentages, PlayerStats.getFloatOr, GetMetric_AddMetric,
          percentMetric, Metric.zero]
        simp [hp2, hp3]
        have hsum : (kt.intValue : ℚ) = m.intValue := by
          exact_mod_cast by omega
        field_simp
        linarith [hsum]
  | none =>
    have hkv : weaponCnt ps "knife_ticks" = 0 := by
      rw [weaponCnt, hk]
      rfl
    dsimp only
    cases hnk : ps.GetMetric "weapons" "non_knife_ticks" with
    | some nkt =>
      have hnkv : weaponCnt ps "non_knife_ticks" = nkt.intValue := by
        rw [weaponCnt, hnk]
        rfl
      dsimp only
      rw [show (ps.AddMetric "weapons" "non_knife_percentage"
          (percentMetric ((nkt.intValue : ℚ) / (m.intValue : ℚ) * 100)
            "Percentage of time with non-knife weapons equipped")).GetMetric "weapons"
          "no_weapon_ticks" = ps.GetMetric "weapons" "no_weapon_ticks" by
        simp [GetMetric_AddMetric]]
      cases hnw : ps.GetMetric "weapons" "no_weapon_ticks" with
      | some nwt =>
        have hnwv : weaponCnt ps "no_weapon_ticks" = nwt.intValue := by
          rw [weaponCnt, hnw]
          rfl
        simp only [sumWeaponPercentages, PlayerStats.getFloatOr, GetMetric_AddMetric,
          percentMetric, Metric.zero]
        simp [hp1]
        have hsum : (nkt.intValue : ℚ) + nwt.intValue = m.intValue := by
          exact_mod_cast by omega
        field_simp
        linarith [hsum]
      | none =>
        have hnwv : weaponCnt ps "no_weapon_ticks" = 0 := by
          rw [weaponCnt, hnw]
          rfl
        simp only [sumWeaponPercentages, PlayerStats.getFloatOr, GetMetric_AddMetric,
          percentMetric, Metric.zero]
        simp [hp1, hp3]
        have hsum : (nkt.intValue : ℚ) = m.intValue := by
          exact_mod_cast by omega
        field_simp
        linarith [hsum]
    | none =>
      have hnkv : weaponCnt ps "non_knife_ticks" = 0 := by
        rw [weaponCnt, hnk]
        rfl
      dsimp only
      cases hnw : ps.GetMetric "weapons" "no_weapon_ticks" with
      | some nwt =>
        have hnwv : weaponCnt ps "no_weapon_ticks" = nwt.intValue := by
          rw [weaponCnt, hnw]
          rfl
        simp only [sumWeaponPercentages, PlayerStats.getFloatOr, GetMetric_AddMetric,
          percentMetric, Metric.zero]
        simp [hp1, hp2]
        have hsum : (nwt.intValue : ℚ) = m.intValue := by
          exact_mod_cast by omega
        field_simp
        linarith [hsum]
      | none =>
        have hnwv : weaponCnt ps "no_weapon_ticks" = 0 := by
          rw [weaponCnt, hnw]
          rfl
        exfalso
        omega

theorem getKey_mem {κ α : Type} [DecidableEq κ] (l : List (κ × α)) (k : κ) (v : α)
    (h : getKey l k = some v) : (k, v) ∈ l := by
  induction l with
  | nil => simp [getKey] at h
  | cons hd t ih =>
    obtain ⟨k0, v0⟩ := hd
    by_cases h0 : k0 = k
    · subst h0
      simp [getKey] at h
      simp [h]
    · simp [getKey, h0] at h
      simp [ih h]

theorem finalize_GetMetric_total (ps : PlayerStats) :
    (weaponUsageFinalizePlayer ps).GetMetric "weapons" "total_ticks"
      = ps.GetMetric "weapons" "total_ticks" := by
  unfold weaponUsageFinalizePlayer
  cases hm : ps.GetMetric "weapons" "total_ticks" with
  | none => rw [hm]
  | some m =>
    dsimp only
    by_cases hz : m.intValue = 0
    · rw [if_pos hz, hm]
    · rw [if_neg hz]
      split <;> split <;> split <;> simp [GetMetric_AddMetric, hm]

theorem finalize_skip_none (ps : PlayerStats)
    (h : ps.GetMetric "weapons" "total_ticks" = none) : weaponUsageFinalizePlayer ps = ps := by
  unfold weaponUsageFinalizePlayer
  rw [h]

theorem finalize_skip_zero (ps : PlayerStats) (m : Metric)
    (hm : ps.GetMetric "weapons" "total_ticks" = some m) (h : m.intValue = 0) :
    weaponUsageFinalizePlayer ps = ps := by
  unfold weaponUsageFinalizePlayer
  rw [hm]
  dsimp only
  rw [if_pos h]

/-- C5: after a full run of the weapon-usage collector from a state with no
weapons metrics, every player whose `total_ticks` metric is present and
nonzero has knife, non-knife and no-weapon percentages (absent ones reading
as 0, as in the source's own validation block) summing exactly to 100 — in
particular within [99.9, 100.1]; and every player with zero observed ticks
(absent or zero `total_ticks`) has no weapon-usage percentage written at
all. -/
theorem weapon_usage_percentages (ds0 : DemoStats) (frames : List (List FrameObs))
    (hclean : ∀ e ∈ ds0.players, getKey e.2.categories "weapons" = none)
    (pid : ℕ) (ps : PlayerStats)
    (hps : getKey (weaponUsageRunAll ds0 frames).players pid = some ps) :
    ((∃ m, ps.GetMetric "weapons" "total_ticks" = some m ∧ m.intValue ≠ 0) →
      sumWeaponPercentages ps = 100
      ∧ 99.9 ≤ sumWeaponPercentages ps ∧ sumWeaponPercentages ps ≤ 100.1)
    ∧ ((∀ m, ps.GetMetric "weapons" "total_ticks" = some m → m.intValue = 0) →
      ps.GetMetric "weapons" "knife_percentage" = none
      ∧ ps.GetMetric "weapons" "non_knife_percentage" = none
      ∧ ps.GetMetric "weapons" "no_weapon_percentage" = none) := by
  have hinit : ∀ pid0 ps0, getKey ds0.players pid0 = some ps0 → WInv ps0 := by
    intro pid0 ps0 h0
    have hcat := hclean _ (getKey_mem _ _ _ h0)
    exact ⟨by simp [weaponCnt, PlayerStats.GetMetric, metricIntD, hcat],
      by simp [PlayerStats.GetMetric, hcat], by simp [PlayerStats.GetMetric, hcat],
      by simp [PlayerStats.GetMetric, hcat]⟩
  unfold weaponUsageRunAll weaponUsageCollectFinalStats at hps
  dsimp only at hps
  rw [getKey_map_value] at hps
  obtain ⟨ps0, hg0, rfl⟩ := Option.map_eq_some'.mp hps
  have hinv := WInv_run frames ds0 hinit pid ps0 hg0
  constructor
  · rintro ⟨m, hm, hnz⟩
    rw [finalize_GetMetric_total] at hm
    have h100 := finalize_sum ps0 hinv m hm hnz
    refine ⟨h100, ?_, ?_⟩
    · rw [h100]
      norm_num
    · rw [h100]
      norm_num
  · intro hz
    obtain ⟨heq, hp1, hp2, hp3⟩ := hinv
    cases hm : ps0.GetMetric "weapons" "total_ticks" with
    | none =>
      rw [finalize_skip_none ps0 hm]
      exact ⟨hp1, hp2, hp3⟩
    | some m =>
      have hz' := hz m (by rw [finalize_GetMetric_total]; exact hm)
      rw [finalize_skip_zero ps0 m hm hz']
      exact ⟨hp1, hp2, hp3⟩

/-- An initial demo state with one never-observed player (id 9). -/
def dsC5init : DemoStats := ⟨[(9, NewPlayerStats 9 "idle")], 0, 0, "", ""⟩

/-- Two frames in which player 7 holds a knife and then another weapon. -/
def framesC5 : List (List FrameObs) :=
  [[⟨7, "a", HeldItem.knife⟩], [⟨7, "a", HeldItem.other⟩]]

/-- Witness for C5: player 7 (2 observed ticks) has percentages summing to
100; player 9 (0 observed ticks) has no percentage metric. -/
theorem weapon_usage_percentages_witness :
    (∃ ps, getKey (weaponUsageRunAll dsC5init framesC5).players 7 = some ps
      ∧ sumWeaponPercentages ps = 100 ∧ 99.9 ≤ sumWeaponPercentages ps
      ∧ sumWeaponPercentages ps ≤ 100.1)
    ∧ (∃ ps, getKey (weaponUsageRunAll dsC5init framesC5).players 9 = some ps
      ∧ ps.GetMetric "weapons" "knife_percentage" = none) := by
  constructor
  · cases hg : getKey (weaponUsageRunAll dsC5init framesC5).players 7 with
    | none => exact absurd hg (by decide)
    | some ps =>
      have htot : ((getKey (weaponUsageRunAll dsC5init framesC5).players 7).bind
          fun ps => ps.GetMetric "weapons" "total_ticks") = some (intMetric 2) := by decide
      rw [hg] at htot
      simp only [Option.some_bind] at htot
      exact ⟨ps, rfl, (weapon_usage_percentages dsC5init framesC5 (by decide) 7 ps hg).1
        ⟨intMetric 2, htot, by decide⟩⟩
  · cases hg : getKey (weaponUsageRunAll dsC5init framesC5).players 9 with
    | none => exact absurd hg (by decide)
    | some ps =>
      have htot : ((getKey (weaponUsageRunAll dsC5init framesC5).players 9).bind
          fun ps => ps.GetMetric "weapons" "total_ticks") = none := by decide
      rw [hg] at htot
      simp only [Option.some_bind] at htot
      refine ⟨ps, rfl, ?_⟩
      have hB := (weapon_usage_percentages dsC5init framesC5 (by decide) 9 ps hg).2
        (fun m hm => absurd hm (by rw [htot]; simp))
      exact hB.1

/-! ## Snap-angle percentile statistics (source: `src/pkg/stats/snap_collectors.go`) -/

/-- The 95th-percentile index of `CollectFinalStats` (snap_collectors.go lines
274-278): `int(float64(n) * 0.95)` — exactly `(n * 95) / 100` in integer
arithmetic — clamped to the last index. -/
def p95IndexOf (n : ℕ) : ℕ :=
  let idx := n * 95 / 100
  if n ≤ idx then n - 1 else idx

/-- Per-player percentile computation of `SnapAngleCollector.CollectFinalStats`
(snap_collectors.go lines 248-322): for a non-empty velocity list, sort
(`sort.Float64s`, embedded as insertion sort — any sorted permutation), then
report the values at the clamped 95th-percentile index and at index `n / 2`,
the arithmetic mean, and the count. -/
def snapFinalStats (velocities : List ℚ) : Option (ℚ × ℚ × ℚ × ℤ) :=
  if velocities = [] then none
  else
    let sorted := List.insertionSort (· ≤ ·) velocities
    let n := velocities.length
    let p95Value := sorted.getD (p95IndexOf n) 0
    let medianValue := sorted.getD (n / 2) 0
    let avgValue := velocities.foldl (· + ·) 0 / (n : ℚ)
    some (p95Value, medianValue, avgValue, (n : ℤ))

theorem p95IndexOf_lt (n : ℕ) (hn : 0 < n) : p95IndexOf n < n := by
  unfold p95IndexOf
  dsimp only
  by_cases h : n ≤ n * 95 / 100
  · rw [if_pos h]
    omega
  · rw [if_neg h]
    omega

theorem medianIndex_le_p95IndexOf (n : ℕ) (hn : 0 < n) : n / 2 ≤ p95IndexOf n := by
  unfold p95IndexOf
  dsimp only
  have h50 : n * 50 / 100 = n / 2 := by
    rw [show n * 50 = 50 * n by ring, show 100 = 50 * 2 by norm_num]
    exact Nat.mul_div_mul_left n 2 (by norm_num)
  have hle : n * 50 / 100 ≤ n * 95 / 100 :=
    Nat.div_le_div_right (Nat.mul_le_mul_left n (by norm_num))
  have hlt : n * 95 / 100 < n := by
    rw [Nat.div_lt_iff_lt_mul (by norm_num : (0 : ℕ) < 100)]
    omega
  rw [if_neg (by omega)]
  omega

/-- C6: for every non-empty list of recorded snap velocities (all
non-negative, as recorded velocities are strictly positive by the filter in
`processKill`), after sorting, the reported 95th-percentile value — at index
`int(0.95 * n)` clamped to the last index — is at least the reported median
(index `n / 2`), which in turn is at least 0. -/
theorem snap_p95_ge_median (velocities : List ℚ) (hne : velocities ≠ [])
    (hpos : ∀ v ∈ velocities, 0 ≤ v) :
    ∃ p95 median avg n, snapFinalStats velocities = some (p95, median, avg, n)
      ∧ 0 ≤ median ∧ median ≤ p95 := by
  have hn : 0 < velocities.length := List.length_pos.mpr hne
  have hlen : (List.insertionSort (· ≤ ·) velocities).length = velocities.length :=
    (List.perm_insertionSort _ _).length_eq
  have hsorted : List.Sorted (· ≤ ·) (List.insertionSort (· ≤ ·) velocities) :=
    List.sorted_insertionSort _ _
  have hp95lt : p95IndexOf velocities.length < (List.insertionSort (· ≤ ·) velocities).length := by
    rw [hlen]
    exact p95IndexOf_lt _ hn
  have hmedlt : velocities.length / 2 < (List.insertionSort (· ≤ ·) velocities).length := by
    rw [hlen]
    omega
  refine ⟨(List.insertionSort (· ≤ ·) velocities).getD (p95IndexOf velocities.length) 0,
    (List.insertionSort (· ≤ ·) velocities).getD (velocities.length / 2) 0,
    velocities.foldl (· + ·) 0 / (velocities.length : ℚ), (velocities.length : ℤ), ?_, ?_, ?_⟩
  · unfold snapFinalStats
    rw [if_neg hne]
  · rw [List.getD_eq_getElem _ 0 hmedlt]
    have hmem : (List.insertionSort (· ≤ ·) velocities)[velocities.length / 2] ∈ velocities :=
      (List.perm_insertionSort (· ≤ ·) velocities).subset (List.getElem_mem _)
    exact hpos _ hmem
  · rw [List.getD_eq_getElem _ 0 hmedlt, List.getD_eq_getElem _ 0 hp95lt]
    have := List.Sorted.rel_get_of_le hsorted
      (a := ⟨velocities.length / 2, hmedlt⟩) (b := ⟨p95IndexOf velocities.length, hp95lt⟩)
      (by exact medianIndex_le_p95IndexOf _ hn)
    simpa using this

/-- Witness for C6 at the velocity sample [2, 1, 3]. -/
theorem snap_p95_ge_median_witness :
    ∃ p95 median avg n, snapFinalStats [2, 1, 3] = some (p95, median, avg, n)
      ∧ 0 ≤ median ∧ median ≤ p95 :=
  snap_p95_ge_median [2, 1, 3] (by decide) (by decide)

/-! ## Snap-angle kill analysis (source: `src/pkg/stats/snap_collectors.go`) -/

/-- Source constant `MinAngleDiffThreshold` (snap_collectors.go line 17). -/
def MinAngleDiffThreshold : ℚ := 0.2

/-- Truncation toward zero, as used by Go's `math.Mod`. -/
def goTrunc (q : ℚ) : ℤ := if 0 ≤ q then ⌊q⌋ else ⌈q⌉

/-- Go's `math.Mod(x, 360)`: remainder with the sign of the dividend. -/
def goMod360 (x : ℚ) : ℚ := x - 360 * goTrunc (x / 360)

/-- Source helper `angleDiff` (snap_collectors.go lines 326-332): shortest
wrap-aware absolute angular difference. -/
def angleDiff (a b : ℚ) : ℚ :=
  let diff := goMod360 (b - a + 180) - 180
  let diff2 := if diff < -180 then diff + 360 else diff
  |diff2|

/-- A view-angle sample (source struct `ViewAngleSnapshot`, snap_collectors.go
lines 21-27; the `Killed`/`Weapon` pointer fields are never read in
`processKill` and are omitted). -/
structure ViewAngleSnapshot where
  tick : ℤ
  yaw : ℚ
  pitch : ℚ
deriving DecidableEq, Inhabited

/-- The squared combined 2D angular delta of two adjacent samples.  The
source (snap_collectors.go lines 150-155) compares
`sqrt(yawDiff^2 + pitchDiff^2) < MinAngleDiffThreshold`; both sides are
non-negative, so this equals comparing the square against the squared
threshold, which keeps the embedding rational. -/
def settledDeltaSq (current previous : ViewAngleSnapshot) : ℚ :=
  let yawDiff := angleDiff current.yaw previous.yaw
  let pitchDiff := angleDiff current.pitch previous.pitch
  yawDiff * yawDiff + pitchDiff * pitchDiff

/-- The settling-point search of `processKill` (snap_collectors.go lines
141-160): the loop starts at index 1 of the most-recent-first sample list,
so it walks the adjacent pairs of the list's tail; the first pair below the
settled threshold yields the earlier sample of that pair. -/
def findSettledStart : List ViewAngleSnapshot → Option ViewAngleSnapshot
  | current :: previous :: rest =>
      if settledDeltaSq current previous < MinAngleDiffThreshold * MinAngleDiffThreshold then
        some previous
      else findSettledStart (previous :: rest)
  | _ => none

/-- Start-sample selection of `processKill` (snap_collectors.go lines
136-165): the settled pair's earlier sample, else the oldest sample. -/
def snapStartOf (endSnapshot : ViewAngleSnapshot) (rest : List ViewAngleSnapshot) :
    ViewAngleSnapshot :=
  match findSettledStart rest with
  | some s => s
  | none => rest.getLastD endSnapshot

/-- Tick delta with the minimum-1 clamp (snap_collectors.go lines 167-171). -/
def snapTickDelta (endSnapshot startSnapshot : ViewAngleSnapshot) : ℚ :=
  let tickDelta0 : ℚ := ((endSnapshot.tick - startSnapshot.tick : ℤ) : ℚ)
  if tickDelta0 ≤ 0 then 1 else tickDelta0

/-- Milliseconds from the tick delta (snap_collectors.go line 179). -/
def snapTimeDeltaMs (tickDelta tickRate : ℚ) : ℚ := tickDelta / max 1 tickRate * 1000

/-- The values computed by one `processKill` analysis. -/
structure SnapCalc where
  startSnapshot : ViewAngleSnapshot
  endSnapshot : ViewAngleSnapshot
  tickDelta : ℚ
  angleDeltaSq : ℚ
  timeDeltaMs : ℚ
  recorded : Bool
deriving DecidableEq

/-- The analysis part of `SnapAngleCollector.processKill` (snap_collectors.go
lines 112-196), given the most-recent-first sample list of the killer's ring
buffer: guard on at least 5 samples, select the start sample, clamp the tick
delta, and record a velocity exactly when it is positive.  The source's
velocity is `sqrt(angleDeltaSq) / timeDeltaMs` and is stored only when
`velocity > 0 && !IsNaN && !IsInf`; with `timeDeltaMs > 0` (proved below)
that condition holds iff `0 < angleDeltaSq`, which is the rational test used
for the `recorded` flag. -/
def processKillCalc (recentAngles : List ViewAngleSnapshot) (tickRate : ℚ) : Option SnapCalc :=
  if recentAngles.length < 5 then none
  else
    match recentAngles with
    | [] => none
    | endSnapshot :: rest =>
      let startSnapshot := snapStartOf endSnapshot rest
      let tickDelta := snapTickDelta endSnapshot startSnapshot
      let yawDiff := angleDiff startSnapshot.yaw endSnapshot.yaw
      let pitchDiff := angleDiff startSnapshot.pitch endSnapshot.pitch
      let angleDeltaSq := yawDiff * yawDiff + pitchDiff * pitchDiff
      let timeDeltaMs := snapTimeDeltaMs tickDelta tickRate
      some ⟨startSnapshot, endSnapshot, tickDelta, angleDeltaSq, timeDeltaMs,
        decide (0 < angleDeltaSq)⟩

theorem findSettledStart_spec (l : List ViewAngleSnapshot) :
    (∃ i : ℕ, i + 1 < l.length
      ∧ (∀ j : ℕ, j < i → ¬(settledDeltaSq (l.getD j default) (l.getD (j+1) default)
            < MinAngleDiffThreshold * MinAngleDiffThreshold))
      ∧ settledDeltaSq (l.getD i default) (l.getD (i+1) default)
          < MinAngleDiffThreshold * MinAngleDiffThreshold
      ∧ findSettledStart l = some (l.getD (i+1) default))
    ∨ ((∀ j : ℕ, j + 1 < l.length →
          ¬(settledDeltaSq (l.getD j default) (l.getD (j+1) default)
            < MinAngleDiffThreshold * MinAngleDiffThreshold))
        ∧ findSettledStart l = none) := by
  induction l with
  | nil =>
    right
    refine ⟨?_, rfl⟩
    intro j hj
    simp at hj
  | cons a t ih =>
    cases t with
    | nil =>
      right
      refine ⟨?_, rfl⟩
      intro j hj
      simp at hj
    | cons b t2 =>
      by_cases hab : settledDeltaSq a b < MinAngleDiffThreshold * MinAngleDiffThreshold
      · left
        refine ⟨0, by simp, fun j hj => absurd hj (by omega), ?_, ?_⟩
        · simpa [List.getD_cons_zero, List.getD_cons_succ] using hab
        · simp [findSettledStart, hab, List.getD_cons_succ, List.getD_cons_zero]
      · rcases ih with ⟨i, hi, hprev, hsett, heq⟩ | ⟨hall, heq⟩
        · left
          refine ⟨i + 1, by simpa using hi, ?_, ?_, ?_⟩
          · intro j hj
            cases j with
            | zero => simpa [List.getD_cons_zero, List.getD_cons_succ] using hab
            | succ j2 =>
              have hj2 : j2 < i := by omega
              simpa [List.getD_cons_succ] using hprev j2 hj2
          · simpa [List.getD_cons_succ] using hsett
          · simp [findSettledStart, hab, heq, List.getD_cons_succ]
        · right
          refine ⟨?_, ?_⟩
          · intro j hj
            cases j with
            | zero => simpa [List.getD_cons_zero, List.getD_cons_succ] using hab
            | succ j2 =>
              have hj2 : j2 + 1 < (b :: t2).length := by simpa using hj
              simpa [List.getD_cons_succ] using hall j2 hj2
          · simp [findSettledStart, hab, heq]

theorem snapTickDelta_ge_one (e s : ViewAngleSnapshot) : 1 ≤ snapTickDelta e s := by
  unfold snapTickDelta
  dsimp only
  by_cases h : ((e.tick - s.tick : ℤ) : ℚ) ≤ 0
  · rw [if_pos h]
  · rw [if_neg h]
    have h2 : 0 < e.tick - s.tick := by exact_mod_cast not_le.mp h
    have h3 : 1 ≤ e.tick - s.tick := h2
    exact_mod_cast h3

theorem snapTimeDeltaMs_pos (tickDelta tickRate : ℚ) (h : 1 ≤ tickDelta) :
    0 < snapTimeDeltaMs tickDelta tickRate := by
  unfold snapTimeDeltaMs
  have h1 : (0 : ℚ) < tickDelta := by linarith
  have h2 : (0 : ℚ) < max 1 tickRate := lt_of_lt_of_le one_pos (le_max_left _ _)
  have := div_pos h1 h2
  nlinarith [this]

/-- C7: on a qualifying kill with at least the guard's 5 buffered samples,
the start sample is the earlier sample of the first adjacent pair — walking
backward from the most recent sample, i.e. over pairs (j, j+1) for j ≥ 1 —
whose combined wrap-aware 2D delta is below the settled threshold, falling
back to the oldest sample when no such pair exists; the elapsed tick delta is
clamped to a minimum of 1; the elapsed milliseconds are positive; and a
velocity (`sqrt(angleDeltaSq) / timeDeltaMs`, degrees per millisecond) is
recorded exactly when it is positive — equivalently nonzero, NaN and
infinities being impossible with a positive finite divisor. -/
theorem snap_processKill_start_and_recording (recentAngles : List ViewAngleSnapshot)
    (tickRate : ℚ) (h5 : 5 ≤ recentAngles.length) :
    ∃ r : SnapCalc, processKillCalc recentAngles tickRate = some r
      ∧ ((∃ i : ℕ, 1 ≤ i ∧ i + 1 < recentAngles.length
            ∧ (∀ j : ℕ, 1 ≤ j → j < i →
                ¬(settledDeltaSq (recentAngles.getD j default)
                    (recentAngles.getD (j+1) default)
                  < MinAngleDiffThreshold * MinAngleDiffThreshold))
            ∧ settledDeltaSq (recentAngles.getD i default) (recentAngles.getD (i+1) default)
                < MinAngleDiffThreshold * MinAngleDiffThreshold
            ∧ r.startSnapshot = recentAngles.getD (i+1) default)
        ∨ ((∀ j : ℕ, 1 ≤ j → j + 1 < recentAngles.length →
              ¬(settledDeltaSq (recentAngles.getD j default)
                  (recentAngles.getD (j+1) default)
                < MinAngleDiffThreshold * MinAngleDiffThreshold))
            ∧ r.startSnapshot = recentAngles.getLastD default))
      ∧ 1 ≤ r.tickDelta
      ∧ 0 < r.timeDeltaMs
      ∧ (r.recorded = true
          ↔ 0 < Real.sqrt (r.angleDeltaSq : ℝ) / (r.timeDeltaMs : ℝ)) := by
  cases recentAngles with
  | nil => simp at h5
  | cons e rest =>
    refine ⟨⟨snapStartOf e rest, e, snapTickDelta e (snapStartOf e rest),
      angleDiff (snapStartOf e rest).yaw e.yaw * angleDiff (snapStartOf e rest).yaw e.yaw
        + angleDiff (snapStartOf e rest).pitch e.pitch
          * angleDiff (snapStartOf e rest).pitch e.pitch,
      snapTimeDeltaMs (snapTickDelta e (snapStartOf e rest)) tickRate,
      decide (0 < angleDiff (snapStartOf e rest).yaw e.yaw
          * angleDiff (snapStartOf e rest).yaw e.yaw
        + angleDiff (snapStartOf e rest).pitch e.pitch
          * angleDiff (snapStartOf e rest).pitch e.pitch)⟩, ?_, ?_, ?_, ?_, ?_⟩
    · unfold processKillCalc
      rw [if_neg (not_lt.mpr h5)]
    · dsimp only
      rcases findSettledStart_spec rest with ⟨i, hi, hprev, hsett, heq⟩ | ⟨hall, heq⟩
      · left
        refine ⟨i + 1, by omega, by simpa using hi, ?_, ?_, ?_⟩
        · intro j hj1 hji
          obtain ⟨j2, rfl⟩ : ∃ j2, j = j2 + 1 := ⟨j - 1, by omega⟩
          have hj2 : j2 < i := by omega
          simpa [List.getD_cons_succ] using hprev j2 hj2
        · simpa [List.getD_cons_succ] using hsett
        · unfold snapStartOf
          rw [heq]
          simp [List.getD_cons_succ]
      · right
        constructor
        · intro j hj1 hjlen
          obtain ⟨j2, rfl⟩ : ∃ j2, j = j2 + 1 := ⟨j - 1, by omega⟩
          have hj2 : j2 + 1 < rest.length := by
            simp at hjlen
            omega
          simpa [List.getD_cons_succ] using hall j2 hj2
        · unfold snapStartOf
          rw [heq]
          rw [List.getLastD_cons]
    · exact snapTickDelta_ge_one e _
    · exact snapTimeDeltaMs_pos _ tickRate (snapTickDelta_ge_one e _)
    · dsimp only
      rw [decide_eq_true_eq]
      have hms : (0 : ℝ) < ((snapTimeDeltaMs (snapTickDelta e (snapStartOf e rest))
          tickRate : ℚ) : ℝ) := by
        exact_mod_cast snapTimeDeltaMs_pos _ tickRate (snapTickDelta_ge_one e _)
      constructor
      · intro hq
        have hq2 : (0 : ℝ) < ((angleDiff (snapStartOf e rest).yaw e.yaw
            * angleDiff (snapStartOf e rest).yaw e.yaw
            + angleDiff (snapStartOf e rest).pitch e.pitch
              * angleDiff (snapStartOf e rest).pitch e.pitch : ℚ) : ℝ) := by
          exact_mod_cast hq
        exact div_pos (Real.sqrt_pos.mpr hq2) hms
      · intro hpos
        by_contra hq
        push_neg at hq
        have hq2 : ((angleDiff (snapStartOf e rest).yaw e.yaw
            * angleDiff (snapStartOf e rest).yaw e.yaw
            + angleDiff (snapStartOf e rest).pitch e.pitch
              * angleDiff (snapStartOf e rest).pitch e.pitch : ℚ) : ℝ) ≤ 0 := by
          exact_mod_cast hq
        rw [Real.sqrt_eq_zero'.mpr hq2] at hpos
        simp at hpos

/-- Witness for C7 at a concrete 5-sample buffer and tick rate 64. -/
theorem snap_processKill_start_and_recording_witness :
    ∃ r : SnapCalc, processKillCalc
        [⟨100, 10, 0⟩, ⟨99, 50, 0⟩, ⟨98, 90, 0⟩, ⟨97, 90, 0⟩, ⟨96, 90, 0⟩] 64 = some r
      ∧ ((∃ i : ℕ, 1 ≤ i ∧ i + 1 < 5
            ∧ (∀ j : ℕ, 1 ≤ j → j < i →
                ¬(settledDeltaSq ([⟨100, 10, 0⟩, ⟨99, 50, 0⟩, ⟨98, 90, 0⟩, ⟨97, 90, 0⟩,
                    ⟨96, 90, 0⟩].getD j default)
                    ([⟨100, 10, 0⟩, ⟨99, 50, 0⟩, ⟨98, 90, 0⟩, ⟨97, 90, 0⟩,
                    ⟨96, 90, 0⟩].getD (j+1) default)
                  < MinAngleDiffThreshold * MinAngleDiffThreshold))
            ∧ settledDeltaSq ([⟨100, 10, 0⟩, ⟨99, 50, 0⟩, ⟨98, 90, 0⟩, ⟨97, 90, 0⟩,
                  ⟨96, 90, 0⟩].getD i default)
                ([⟨100, 10, 0⟩, ⟨99, 50, 0⟩, ⟨98, 90, 0⟩, ⟨97, 90, 0⟩,
                  ⟨96, 90, 0⟩].getD (i+1) default)
                < MinAngleDiffThreshold * MinAngleDiffThreshold
            ∧ r.startSnapshot = [⟨100, 10, 0⟩, ⟨99, 50, 0⟩, ⟨98, 90, 0⟩, ⟨97, 90, 0⟩,
                ⟨96, 90, 0⟩].getD (i+1) default)
        ∨ ((∀ j : ℕ, 1 ≤ j → j + 1 < 5 →
              ¬(settledDeltaSq ([⟨100, 10, 0⟩, ⟨99, 50, 0⟩, ⟨98, 90, 0⟩, ⟨97, 90, 0⟩,
                  ⟨96, 90, 0⟩].getD j default)
                  ([⟨100, 10, 0⟩, ⟨99, 50, 0⟩, ⟨98, 90, 0⟩, ⟨97, 90, 0⟩,
                  ⟨96, 90, 0⟩].getD (j+1) default)
                < MinAngleDiffThreshold * MinAngleDiffThreshold))
            ∧ r.startSnapshot = [⟨100, 10, 0⟩, ⟨99, 50, 0⟩, ⟨98, 90, 0⟩, ⟨97, 90, 0⟩,
                ⟨96, 90, 0⟩].getLastD default))
      ∧ 1 ≤ r.tickDelta
      ∧ 0 < r.timeDeltaMs
      ∧ (r.recorded = true
          ↔ 0 < Real.sqrt (r.angleDeltaSq : ℝ) / (r.timeDeltaMs : ℝ)) :=
  snap_processKill_start_and_recording
    [⟨100, 10, 0⟩, ⟨99, 50, 0⟩, ⟨98, 90, 0⟩, ⟨97, 90, 0⟩, ⟨96, 90, 0⟩] 64 (by decide)

/-! ## Reaction time collector (source: `src/pkg/stats/reaction_collectors.go`) -/

/-- The elapsed reaction time in milliseconds (reaction_collectors.go line
96): `float64(currentTick - entryTick) * (1000.0 / tickRate)`. -/
def reactionDeltaT (currentTick entryTick : ℤ) (tickRate : ℚ) : ℚ :=
  ((currentTick - entryTick : ℤ) : ℚ) * (1000 / tickRate)

/-- The collector state used by `processWeaponFire`: FOV-entry ticks per
attacker per opponent, recorded reaction times per player, current tick and
tick rate (reaction_collectors.go lines 22-32). -/
structure ReactionState where
  entryTicks : List (ℕ × List (ℕ × ℤ))
  reactionTimes : List (ℕ × List ℚ)
  currentTick : ℤ
  tickRate : ℚ
deriving DecidableEq

/-- Loop body of `processWeaponFire` (reaction_collectors.go lines 94-113):
compute the elapsed milliseconds for one tracked opponent, discard values
above 2000 ms, append kept values to the shooter's reaction-time list and
count the shot in the `shots_after_fov_entry` metric. -/
def reactionRecordOne (rtc : ReactionState) (ds : DemoStats) (s : GoPlayer)
    (entry : ℕ × ℤ) : ReactionState × DemoStats :=
  let deltaT := reactionDeltaT rtc.currentTick entry.2 rtc.tickRate
  if deltaT ≤ 2000 then
    let newTimes := (getKey rtc.reactionTimes s.steamID64).getD [] ++ [deltaT]
    let rtc1 := { rtc with reactionTimes := setKey rtc.reactionTimes s.steamID64 newTimes }
    let ds1 := (ds.ensurePlayer s.steamID64 s.name).updatePlayer s.steamID64
      fun ps => ps.IncrementIntMetric "reaction" "shots_after_fov_entry"
    (rtc1, ds1)
  else
    (rtc, ds)

/-- Source `ReactionTimeCollector.processWeaponFire` (reaction_collectors.go
lines 78-118): nil/zero shooter guard, no-op when no entry ticks are tracked
for the shooter, then the per-opponent loop followed by clearing the
shooter's FOV-entry tracking to an empty map. -/
def processWeaponFire (rtc : ReactionState) (ds : DemoStats) (shooter : Option GoPlayer) :
    ReactionState × DemoStats :=
  match shooter with
  | none => (rtc, ds)
  | some s =>
    if s.steamID64 = 0 then (rtc, ds)
    else
      match getKey rtc.entryTicks s.steamID64 with
      | none => (rtc, ds)
      | some attackerEntryTicks =>
        if attackerEntryTicks = [] then (rtc, ds)
        else
          let r := attackerEntryTicks.foldl
            (fun acc entry => reactionRecordOne acc.1 acc.2 s entry) (rtc, ds)
          let cleared := { r.1 with entryTicks := setKey r.1.entryTicks s.steamID64 [] }
          (cleared, r.2)

/-- The sub-100 ms sample count of `CollectFinalStats` (reaction_collectors.go
lines 270-277). -/
def sub100Count (times : List ℚ) : ℕ := (times.filter fun t => t ≤ 100).length

theorem reactionRecordFold (s : GoPlayer) (l : List (ℕ × ℤ)) :
    ∀ (rtc : ReactionState) (ds : DemoStats),
    (l.foldl (fun acc entry => reactionRecordOne acc.1 acc.2 s entry) (rtc, ds)).1.currentTick
        = rtc.currentTick
    ∧ (l.foldl (fun acc entry => reactionRecordOne acc.1 acc.2 s entry) (rtc, ds)).1.tickRate
        = rtc.tickRate
    ∧ (l.foldl (fun acc entry => reactionRecordOne acc.1 acc.2 s entry) (rtc, ds)).1.entryTicks
        = rtc.entryTicks
    ∧ (getKey (l.foldl (fun acc entry => reactionRecordOne acc.1 acc.2 s entry)
          (rtc, ds)).1.reactionTimes s.steamID64).getD []
        = (getKey rtc.reactionTimes s.steamID64).getD []
          ++ (l.map fun e => reactionDeltaT rtc.currentTick e.2 rtc.tickRate).filter
              (fun t => t ≤ 2000) := by
  induction l with
  | nil =>
    intro rtc ds
    simp
  | cons e t ih =>
    intro rtc ds
    by_cases hd : reactionDeltaT rtc.currentTick e.2 rtc.tickRate ≤ 2000
    · have hstep : reactionRecordOne rtc ds s e = ({ rtc with reactionTimes := setKey rtc.reactionTimes s.steamID64 ((getKey rtc.reactionTimes s.steamID64).getD [] ++ [reactionDeltaT rtc.currentTick e.2 rtc.tickRate]) }, (ds.ensurePlayer s.steamID64 s.name).updatePlayer s.steamID64 fun ps => ps.IncrementIntMetric "reaction" "shots_after_fov_entry") := by
        unfold reactionRecordOne
        rw [if_pos hd]
      have := ih ({ rtc with reactionTimes := setKey rtc.reactionTimes s.steamID64 ((getKey rtc.reactionTimes s.steamID64).getD [] ++ [reactionDeltaT rtc.currentTick e.2 rtc.tickRate]) }) ((ds.ensurePlayer s.steamID64 s.name).updatePlayer s.steamID64 fun ps => ps.IncrementIntMetric "reaction" "shots_after_fov_entry")
      obtain ⟨h1, h2, h3, h4⟩ := this
      refine ⟨?_, ?_, ?_, ?_⟩
      · simpa [List.foldl_cons, hstep] using h1
      · simpa [List.foldl_cons, hstep] using h2
      · simpa [List.foldl_cons, hstep] using h3
      · rw [List.foldl_cons, hstep, h4]
        dsimp only
        rw [getKey_setKey_self]
        simp [List.filter_cons, hd]
    · have hstep : reactionRecordOne rtc ds s e = (rtc, ds) := by
        unfold reactionRecordOne
        rw [if_neg hd]
      have := ih rtc ds
      obtain ⟨h1, h2, h3, h4⟩ := this
      refine ⟨?_, ?_, ?_, ?_⟩
      · simpa [List.foldl_cons, hstep] using h1
      · simpa [List.foldl_cons, hstep] using h2
      · simpa [List.foldl_cons, hstep] using h3
      · rw [List.foldl_cons, hstep]
        rw [h4]
        simp [List.filter_cons, hd]

/-- C8: on a weapon-fire event with tracked in-FOV opponents, each opponent's
elapsed reaction time is `(fire tick - entry tick) * 1000 / tick rate`
milliseconds; values above 2000 ms are discarded and all others are appended
to the shooter's reaction-time list; the shooter's FOV-entry tracking is then
cleared; and an opponent that entered FOV 6 ticks before the shot at a
64-tick rate yields 93.75 ms, which is kept (93.75 ≤ 2000) and counts toward
the sub-100 ms ratio at finalize (93.75 ≤ 100). -/
theorem reaction_processWeaponFire (rtc : ReactionState) (ds : DemoStats) (s : GoPlayer)
    (l : List (ℕ × ℤ)) (hs0 : s.steamID64 ≠ 0)
    (hl : getKey rtc.entryTicks s.steamID64 = some l) (hne : l ≠ []) :
    getKey (processWeaponFire rtc ds (some s)).1.entryTicks s.steamID64 = some []
    ∧ (getKey (processWeaponFire rtc ds (some s)).1.reactionTimes s.steamID64).getD []
        = (getKey rtc.reactionTimes s.steamID64).getD []
          ++ (l.map fun e => reactionDeltaT rtc.currentTick e.2 rtc.tickRate).filter
              (fun t => t ≤ 2000)
    ∧ (∀ T : ℤ, reactionDeltaT (T + 6) T 64 = 93.75)
    ∧ ((93.75 : ℚ) ≤ 2000)
    ∧ (∀ times : List ℚ, sub100Count (times ++ [93.75]) = sub100Count times + 1) := by
  have hfold := reactionRecordFold s l rtc ds
  obtain ⟨h1, h2, h3, h4⟩ := hfold
  have hunfold : processWeaponFire rtc ds (some s) = ({ (l.foldl (fun acc entry => reactionRecordOne acc.1 acc.2 s entry) (rtc, ds)).1 with entryTicks := setKey (l.foldl (fun acc entry => reactionRecordOne acc.1 acc.2 s entry) (rtc, ds)).1.entryTicks s.steamID64 [] }, (l.foldl (fun acc entry => reactionRecordOne acc.1 acc.2 s entry) (rtc, ds)).2) := by
    unfold processWeaponFire
    dsimp only
    rw [if_neg hs0, hl]
    dsimp only
    rw [if_neg hne]
  refine ⟨?_, ?_, ?_, by norm_num, ?_⟩
  · rw [hunfold]
    exact getKey_setKey_self _ _ _
  · rw [hunfold]
    exact h4
  · intro T
    unfold reactionDeltaT
    have : T + 6 - T = 6 := by omega
    rw [this]
    norm_num
  · intro times
    unfold sub100Count
    rw [List.filter_append]
    simp [List.filter_cons]
    norm_num

/-- A concrete reaction state: shooter 7 saw opponent 5 enter FOV at tick
100; the current tick is 106 and the tick rate 64. -/
def rtcC8 : ReactionState := ⟨[(7, [(5, 100)])], [], 106, 64⟩

/-- Witness for C8: the shot at tick 106 records exactly 93.75 ms and clears
the tracking. -/
theorem reaction_processWeaponFire_witness :
    getKey (processWeaponFire rtcC8 NewDemoStats (some ⟨7, "s", 2⟩)).1.entryTicks 7 = some []
    ∧ (getKey (processWeaponFire rtcC8 NewDemoStats
        (some ⟨7, "s", 2⟩)).1.reactionTimes 7).getD [] = [93.75] := by
  have h := reaction_processWeaponFire rtcC8 NewDemoStats ⟨7, "s", 2⟩ [(5, 100)]
    (by decide) rfl (by decide)
  refine ⟨h.1, ?_⟩
  rw [h.2.1]
  have hval : reactionDeltaT (106 : ℤ) (100 : ℤ) 64 = 93.75 := by
    unfold reactionDeltaT
    norm_num
  simp [rtcC8, hval, getKey]
  norm_num

/-! ## Recoil control collector (source: `src/pkg/stats/recoil_collectors.go`)

The per-weapon spray table `getRecoilOffsets` (lines 512-670, with a
`math.Sin`-based fallback), the error magnitude `math.Hypot` (line 166) and
the weapon-name table `weaponTypeToString` (lines 442-473) enter only the
numeric metric values and weapon-specific key names, never the collector's
control flow, so the semantics below is parametric in them (`offsets`,
`hypotF`, `typeName`); every theorem holds for all instantiations, the
source's tables included.  Weapon automaticity is the external equipment
classification (spec section 6) and is carried on the fire event. -/

/-- Source constant `RecoilRadToDeg` (recoil_collectors.go line 14). -/
def RecoilRadToDeg : ℚ := 57.295779513

/-- Source struct `sprayState` (recoil_collectors.go lines 32-44). -/
structure SprayState where
  inBurst : Bool
  burstID : ℤ
  firstTick : ℤ
  firstYawDeg : ℚ
  firstPitchDeg : ℚ
  bulletIndex : ℤ
  lastFireTick : ℤ
  weapon : ℕ
  weaponName : String
  sumError : ℚ
  countedBullets : ℤ
deriving DecidableEq

/-- The collector's per-run mutable state: spray states per player and the
burst id counter (recoil_collectors.go lines 18-29, constants fixed at
`maxBurstGap = 6`, `minBurstSize = 4`, `maxBulletIdx = 30`). -/
structure RecoilState where
  sprayStates : List (ℕ × SprayState)
  burstIDCounter : ℤ
deriving DecidableEq

/-- A fresh burst record (recoil_collectors.go lines 116-126). -/
def newSprayState (burstID currentTick : ℤ) (yawDeg pitchDeg : ℚ) (weapon : ℕ)
    (weaponName : String) : SprayState :=
  ⟨true, burstID, currentTick, yawDeg, pitchDeg, 1, currentTick, weapon, weaponName, 0, 0⟩

/-- A `Metric{Type: MetricInteger, IntValue: v, Description: d}` literal. -/
def intMetricD (v : ℤ) (d : String) : Metric :=
  { Metric.zero with type := MetricInteger, intValue := v, description := d }

/-- Source `finalizeBurst`, demo-stats effect (recoil_collectors.go lines
221-301): skip bursts below the minimum size or with no counted bullets;
otherwise accumulate the burst's error sum and bullet count into the
player's running totals, bump the burst counter and the weapon-specific
bullet count. -/
def recoilFinalizeBurst (typeName : ℕ → String) (state : SprayState) (steamID : ℕ)
    (ds : DemoStats) : DemoStats :=
  if state.bulletIndex < 4 ∨ state.countedBullets = 0 then ds
  else
    let ds1 := ds.ensurePlayer steamID "Unknown"
    ds1.updatePlayer steamID fun ps =>
      let currentErrorSum := ps.getFloatOr "recoil" "total_error_sum" 0
      let currentBulletCount := ps.getIntOr "recoil" "total_counted_bullets" 0
      let ps1 := ps.AddMetric "recoil" "total_error_sum"
        (floatMetric (currentErrorSum + state.sumError) "Total angular error sum in degrees")
      let ps2 := ps1.AddMetric "recoil" "total_counted_bullets"
        (intMetricD (currentBulletCount + state.countedBullets)
          "Total bullets analyzed for recoil control")
      let ps3 := ps2.IncrementIntMetric "recoil" "burst_count"
      let weaponKey := typeName state.weapon ++ "_bullets"
      let currentWeaponCount := ps3.getIntOr "recoil" weaponKey 0
      ps3.AddMetric "recoil" weaponKey
        (intMetricD (currentWeaponCount + state.countedBullets)
          ("Bullets analyzed for " ++ state.weaponName))

/-- Source `finalizeBurst`, spray-state effect (recoil_collectors.go lines
296-300): the reset happens only when the burst was actually processed. -/
def recoilFinalizeBurstState (state : SprayState) : SprayState :=
  if state.bulletIndex < 4 ∨ state.countedBullets = 0 then state
  else { state with inBurst := false, bulletIndex := 0, sumError := 0, countedBullets := 0 }

/-- Source `handleWeaponFire` (recoil_collectors.go lines 84-218): nil/zero
shooter guard, the non-automatic-weapon guard, then the burst state machine
(new burst, within-gap continuation with the bullet-4-to-30 analysis window,
or gap-exceeded finalize-and-restart). -/
def handleWeaponFire (offsets : ℕ → ℤ → ℚ × ℚ × Bool) (hypotF : ℚ → ℚ → ℚ)
    (typeName : ℕ → String) (st : RecoilState) (ds : DemoStats) (shooter : Option GoPlayer)
    (weaponAuto : Bool) (weaponType : ℕ) (weaponName : String) (yawRad pitchRad : ℚ)
    (currentTick : ℤ) : RecoilState × DemoStats :=
  match shooter with
  | none => (st, ds)
  | some s =>
    if s.steamID64 = 0 then (st, ds)
    else if weaponAuto = false then (st, ds)
    else
      let actualYawDeg := yawRad * RecoilRadToDeg
      let actualPitchDeg := pitchRad * RecoilRadToDeg
      match getKey st.sprayStates s.steamID64 with
      | none =>
          (⟨setKey st.sprayStates s.steamID64
              (newSprayState st.burstIDCounter currentTick actualYawDeg actualPitchDeg
                weaponType weaponName), st.burstIDCounter + 1⟩, ds)
      | some state =>
          if state.inBurst then
            if currentTick - state.lastFireTick ≤ 6 then
              let state1 : SprayState := { state with bulletIndex := state.bulletIndex + 1 }
              if 4 ≤ state1.bulletIndex ∧ state1.bulletIndex ≤ 30 then
                let off := offsets state1.weapon state1.bulletIndex
                if off.2.2 = false then
                  (⟨setKey st.sprayStates s.steamID64
                      { state1 with lastFireTick := currentTick }, st.burstIDCounter⟩, ds)
                else
                  let expectedYawDeg := state1.firstYawDeg - off.1
                  let expectedPitchDeg := state1.firstPitchDeg - off.2.1
                  let angularErrorDeg := hypotF (expectedYawDeg - actualYawDeg)
                    (expectedPitchDeg - actualPitchDeg)
                  let state2 := { state1 with sumError := state1.sumError + angularErrorDeg, countedBullets := state1.countedBullets + 1, lastFireTick := currentTick }
                  (⟨setKey st.sprayStates s.steamID64 state2, st.burstIDCounter⟩, ds)
              else
                (⟨setKey st.sprayStates s.steamID64 { state1 with lastFireTick := currentTick },
                  st.burstIDCounter⟩, ds)
            else
              let ds1 := recoilFinalizeBurst typeName state s.steamID64 ds
              (⟨setKey st.sprayStates s.steamID64
                  (newSprayState st.burstIDCounter currentTick actualYawDeg actualPitchDeg
                    weaponType weaponName), st.burstIDCounter + 1⟩, ds1)
          else
            (⟨setKey st.sprayStates s.steamID64
                (newSprayState st.burstIDCounter currentTick actualYawDeg actualPitchDeg
                  weaponType weaponName), st.burstIDCounter + 1⟩, ds)

/-- Source `RecoilControlCollector.CollectFrame` (recoil_collectors.go lines
304-313): finalize every burst whose gap since the last shot exceeds the
maximum. -/
def recoilCollectFrame (typeName : ℕ → String) (st : RecoilState) (ds : DemoStats)
    (currentTick : ℤ) : RecoilState × DemoStats :=
  let r := st.sprayStates.foldl
    (fun (acc : List (ℕ × SprayState) × DemoStats) e =>
      if e.2.inBurst = true ∧ 6 < currentTick - e.2.lastFireTick then
        (acc.1 ++ [(e.1, recoilFinalizeBurstState e.2)],
          recoilFinalizeBurst typeName e.2 e.1 acc.2)
      else (acc.1 ++ [e], acc.2)) ([], ds)
  (⟨r.1, st.burstIDCounter⟩, r.2)

/-- The events consumed by the recoil collector during the run: weapon fire
(with the external automaticity classification), kill, round end, frame. -/
inductive RecoilEvent where
  | weaponFire (shooter : Option GoPlayer) (weaponAuto : Bool) (weaponType : ℕ)
      (weaponName : String) (yawRad pitchRad : ℚ) (tick : ℤ)
  | kill (victim : Option GoPlayer)
  | roundEnd
  | frame (tick : ℤ)

/-- One event step of the collector (Setup handlers, recoil_collectors.go
lines 62-81, and `CollectFrame`). -/
def recoilStep (offsets : ℕ → ℤ → ℚ × ℚ × Bool) (hypotF : ℚ → ℚ → ℚ)
    (typeName : ℕ → String) (acc : RecoilState × DemoStats) (e : RecoilEvent) :
    RecoilState × DemoStats :=
  match e with
  | RecoilEvent.weaponFire shooter auto wt wn yaw pitch tick =>
      handleWeaponFire offsets hypotF typeName acc.1 acc.2 shooter auto wt wn yaw pitch tick
  | RecoilEvent.kill victim =>
      match victim with
      | some v =>
          if v.steamID64 ≠ 0 then (⟨delKey acc.1.sprayStates v.steamID64, acc.1.burstIDCounter⟩,
            acc.2)
          else acc
      | none => acc
  | RecoilEvent.roundEnd => (⟨[], acc.1.burstIDCounter⟩, acc.2)
  | RecoilEvent.frame tick => recoilCollectFrame typeName acc.1 acc.2 tick

/-- A run of the collector over an event trace from the initial state
(empty spray map, burst counter 1). -/
def recoilRun (offsets : ℕ → ℤ → ℚ × ℚ × Bool) (hypotF : ℚ → ℚ → ℚ)
    (typeName : ℕ → String) (events : List RecoilEvent) (ds0 : DemoStats) :
    RecoilState × DemoStats :=
  events.foldl (recoilStep offsets hypotF typeName) (⟨[], 1⟩, ds0)

/-- Source `interpretation` (recoil_collectors.go lines 414-423). -/
def interpretation (meanError perfectThreshold goodThreshold : ℚ) : String :=
  if 1.2 < meanError then "Poor recoil control"
  else if meanError ≤ perfectThreshold then "Suspiciously perfect recoil control"
  else if meanError ≤ goodThreshold then "Very good recoil control"
  else "Normal recoil control"

/-- Per-player part of `RecoilControlCollector.CollectFinalStats`
(recoil_collectors.go lines 325-410): insufficient data (missing metrics,
fewer than 10 bullets or 2 bursts) writes the two explicit placeholder
metrics; otherwise mean error, efficiency, the clamp01 recoil score and the
interpretation band are written. -/
def recoilFinalizePlayerStats (ps : PlayerStats) : PlayerStats :=
  let totalErrorSum := ps.GetMetric "recoil" "total_error_sum"
  let totalBullets := ps.GetMetric "recoil" "total_counted_bullets"
  let burstCount := ps.GetMetric "recoil" "burst_count"
  if totalErrorSum = none ∨ totalBullets = none ∨ burstCount = none
      ∨ (totalBullets.getD Metric.zero).intValue < 10
      ∨ (burstCount.getD Metric.zero).intValue < 2 then
    (ps.AddMetric "recoil" "mean_angular_error"
      (floatMetric 0 "Mean angular error in recoil control (degrees) - insufficient data")).AddMetric
      "recoil" "recoil_efficiency"
      (percentMetric 0 "Recoil control efficiency (higher is more suspicious) - insufficient data")
  else if (totalBullets.getD Metric.zero).intValue ≤ 0 then ps
  else
    let meanError := (totalErrorSum.getD Metric.zero).floatValue
      / ((totalBullets.getD Metric.zero).intValue : ℚ)
    let recoilEfficiency := if meanError ≤ 0.3 then (100 : ℚ)
      else if meanError < 1 then 100 * (1 - ((meanError - 0.3) / (1 - 0.3)))
      else 0
    let recoilEfficiency2 := max 0 (min 100 recoilEfficiency)
    let ps1 := ps.AddMetric "recoil" "mean_angular_error"
      (floatMetric meanError "Mean angular error in recoil control (degrees)")
    let ps2 := ps1.AddMetric "recoil" "recoil_efficiency"
      (percentMetric recoilEfficiency2 "Recoil control efficiency (higher is more suspicious)")
    let ps3 := ps2.AddMetric "recoil" "recoil_score"
      (floatMetric (clamp01 ((0.75 - meanError) / 0.45))
        "Recoil score component for cheat detection (0-1)")
    ps3.AddMetric "recoil" "recoil_interpretation"
      (stringMetric (interpretation meanError 0.3 0.7)
        "Interpretation of recoil control ability")

/-- Source `RecoilControlCollector.CollectFinalStats` (recoil_collectors.go
lines 316-411): finalize the still-active bursts, then compute the final
per-player statistics. -/
def recoilCollectFinalStats (typeName : ℕ → String) (st : RecoilState) (ds : DemoStats) :
    DemoStats :=
  let r := st.sprayStates.foldl
    (fun acc e => if e.2.inBurst = true then recoilFinalizeBurst typeName e.2 e.1 acc else acc)
    ds
  { r with players := r.players.map fun e => (e.1, recoilFinalizePlayerStats e.2) }

theorem mem_setKey {κ α : Type} [DecidableEq κ] (l : List (κ × α)) (k : κ) (v : α)
    (e : κ × α) (h : e ∈ setKey l k v) : e = (k, v) ∨ e ∈ l := by
  induction l with
  | nil => simpa [setKey] using h
  | cons hd t ih =>
    obtain ⟨k0, v0⟩ := hd
    by_cases h0 : k0 = k
    · simp [setKey, h0] at h
      rcases h with h1 | h2
      · exact Or.inl (by simp [h1])
      · exact Or.inr (List.mem_cons_of_mem _ h2)
    · simp [setKey, h0] at h
      rcases h with h1 | h2
      · exact Or.inr (by simp [h1])
      · rcases ih h2 with h3 | h4
        · exact Or.inl h3
        · exact Or.inr (List.mem_cons_of_mem _ h4)

theorem mem_delKey {κ α : Type} [DecidableEq κ] (l : List (κ × α)) (k : κ)
    (e : κ × α) (h : e ∈ delKey l k) : e ∈ l := by
  induction l with
  | nil => simp [delKey] at h
  | cons hd t ih =>
    obtain ⟨k0, v0⟩ := hd
    by_cases h0 : k0 = k
    · simp [delKey, h0] at h
      exact List.mem_cons_of_mem _ (ih h)
    · simp [delKey, h0] at h
      rcases h with h1 | h2
      · exact by simp [h1]
      · exact List.mem_cons_of_mem _ (ih h2)

/-- `finalizeBurst` touches only the entry of the finalized player. -/
theorem recoilFinalizeBurst_players_ne (typeName : ℕ → String) (state : SprayState)
    (q : ℕ) (ds : DemoStats) (p : ℕ) (h : p ≠ q) :
    getKey (recoilFinalizeBurst typeName state q ds).players p = getKey ds.players p := by
  unfold recoilFinalizeBurst
  split
  · rfl
  · dsimp only
    rw [updatePlayer_getKey_ne _ _ _ _ h, ensurePlayer_getKey_ne _ _ _ _ h]

/-- The invariant of claim C9 for player `p`: no spray state (in particular,
never in-burst) and no metric in the `recoil` category. -/
def RecoilClean (p : ℕ) (acc : RecoilState × DemoStats) : Prop :=
  (∀ e ∈ acc.1.sprayStates, e.1 ≠ p) ∧
  (∀ ps, getKey acc.2.players p = some ps → getKey ps.categories "recoil" = none)

theorem RecoilClean_setKey {p : ℕ} {st : RecoilState} {ds : DemoStats} (q : ℕ)
    (σ : SprayState) (c : ℤ) {ds' : DemoStats} (hq : q ≠ p)
    (hds : getKey ds'.players p = getKey ds.players p) (h : RecoilClean p (st, ds)) :
    RecoilClean p ((⟨setKey st.sprayStates q σ, c⟩, ds') : RecoilState × DemoStats) := by
  constructor
  · intro e he
    rcases mem_setKey _ _ _ _ he with he1 | he2
    · rw [he1]
      exact hq
    · exact h.1 e he2
  · intro ps hps
    rw [hds] at hps
    exact h.2 ps hps

/-- `handleWeaponFire` preserves the C9 invariant for a player whose fires
are all non-automatic (and for everyone else it only touches the shooter's
entries). -/
theorem handleWeaponFire_clean (offsets : ℕ → ℤ → ℚ × ℚ × Bool) (hypotF : ℚ → ℚ → ℚ)
    (typeName : ℕ → String) (st : RecoilState) (ds : DemoStats) (shooter : Option GoPlayer)
    (auto : Bool) (wt : ℕ) (wn : String) (yaw pitch : ℚ) (tick : ℤ) (p : ℕ)
    (hp : ∀ s : GoPlayer, shooter = some s → s.steamID64 = p → auto = false)
    (h : RecoilClean p (st, ds)) :
    RecoilClean p (handleWeaponFire offsets hypotF typeName st ds shooter auto wt wn yaw pitch tick) := by
  cases shooter with
  | none => exact h
  | some s =>
    unfold handleWeaponFire
    dsimp only
    by_cases h0 : s.steamID64 = 0
    · rw [if_pos h0]
      exact h
    rw [if_neg h0]
    by_cases ha : auto = false
    · rw [if_pos ha]
      exact h
    rw [if_neg ha]
    have hsp : s.steamID64 ≠ p := fun he => ha (hp s rfl he)
    cases hg : getKey st.sprayStates s.steamID64 with
    | none =>
      dsimp only
      exact RecoilClean_setKey _ _ _ hsp rfl h
    | some state =>
      dsimp only
      split
      · split
        · split
          · split
            · exact RecoilClean_setKey _ _ _ hsp rfl h
            · exact RecoilClean_setKey _ _ _ hsp rfl h
          · exact RecoilClean_setKey _ _ _ hsp rfl h
        · exact RecoilClean_setKey _ _ _ hsp
            (recoilFinalizeBurst_players_ne _ _ _ _ _ (Ne.symm hsp)) h
      · exact RecoilClean_setKey _ _ _ hsp rfl h

/-- The expiry scan of `CollectFrame` keeps every spray-state key it saw and
only writes demo stats through `finalizeBurst` at those keys. -/
theorem recoilFrameFold (typeName : ℕ → String) (tick : ℤ) (p : ℕ)
    (l : List (ℕ × SprayState)) :
    ∀ acc : List (ℕ × SprayState) × DemoStats,
      (∀ e ∈ l, e.1 ≠ p) → (∀ e ∈ acc.1, e.1 ≠ p) →
      (∀ e ∈ (l.foldl
        (fun (acc : List (ℕ × SprayState) × DemoStats) e =>
          if e.2.inBurst = true ∧ 6 < tick - e.2.lastFireTick then
            (acc.1 ++ [(e.1, recoilFinalizeBurstState e.2)],
              recoilFinalizeBurst typeName e.2 e.1 acc.2)
          else (acc.1 ++ [e], acc.2)) acc).1, e.1 ≠ p)
      ∧ getKey (l.foldl
        (fun (acc : List (ℕ × SprayState) × DemoStats) e =>
          if e.2.inBurst = true ∧ 6 < tick - e.2.lastFireTick then
            (acc.1 ++ [(e.1, recoilFinalizeBurstState e.2)],
              recoilFinalizeBurst typeName e.2 e.1 acc.2)
          else (acc.1 ++ [e], acc.2)) acc).2.players p = getKey acc.2.players p := by
  induction l with
  | nil =>
    intro acc _ hacc
    exact ⟨hacc, rfl⟩
  | cons hd t ih =>
    intro acc hl hacc
    have hhd : hd.1 ≠ p := hl hd (List.mem_cons_self _ _)
    have ht : ∀ e ∈ t, e.1 ≠ p := fun e he => hl e (List.mem_cons_of_mem _ he)
    rw [List.foldl_cons]
    by_cases hc : hd.2.inBurst = true ∧ 6 < tick - hd.2.lastFireTick
    · rw [if_pos hc]
      have hacc2 : ∀ e ∈ acc.1 ++ [(hd.1, recoilFinalizeBurstState hd.2)], e.1 ≠ p := by
        intro e he
        rcases List.mem_append.mp he with he1 | he2
        · exact hacc e he1
        · simp at he2
          rw [he2]
          exact hhd
      have := ih (acc.1 ++ [(hd.1, recoilFinalizeBurstState hd.2)],
        recoilFinalizeBurst typeName hd.2 hd.1 acc.2) ht hacc2
      exact ⟨this.1, this.2.trans
        (recoilFinalizeBurst_players_ne _ _ _ _ _ (Ne.symm hhd))⟩
    · rw [if_neg hc]
      have hacc2 : ∀ e ∈ acc.1 ++ [hd], e.1 ≠ p := by
        intro e he
        rcases List.mem_append.mp he with he1 | he2
        · exact hacc e he1
        · simp at he2
          rw [he2]
          exact hhd
      exact ih (acc.1 ++ [hd], acc.2) ht hacc2

/-- Every single collector step preserves the C9 invariant for a player all
of whose fires are non-automatic. -/
theorem recoilStep_clean (offsets : ℕ → ℤ → ℚ × ℚ × Bool) (hypotF : ℚ → ℚ → ℚ)
    (typeName : ℕ → String) (p : ℕ) (acc : RecoilState × DemoStats) (e : RecoilEvent)
    (he : ∀ (s : GoPlayer) (auto : Bool) (wt : ℕ) (wn : String) (yaw pitch : ℚ) (tick : ℤ),
      e = RecoilEvent.weaponFire (some s) auto wt wn yaw pitch tick →
      s.steamID64 = p → auto = false)
    (h : RecoilClean p acc) :
    RecoilClean p (recoilStep offsets hypotF typeName acc e) := by
  obtain ⟨st, ds⟩ := acc
  cases e with
  | weaponFire shooter auto wt wn yaw pitch tick =>
    exact handleWeaponFire_clean offsets hypotF typeName st ds shooter auto wt wn yaw pitch
      tick p (fun s hs hid => he s auto wt wn yaw pitch tick (by rw [hs]) hid) h
  | kill victim =>
    cases victim with
    | none => exact h
    | some v =>
      unfold recoilStep
      dsimp only
      split
      · refine ⟨fun e he2 => h.1 e (mem_delKey _ _ _ he2), h.2⟩
      · exact h
  | roundEnd =>
    exact ⟨fun e he2 => absurd he2 (List.not_mem_nil e), h.2⟩
  | frame tick =>
    unfold recoilStep recoilCollectFrame
    dsimp only
    have := recoilFrameFold typeName tick p st.sprayStates ([], ds) h.1
      (fun e he2 => absurd he2 (List.not_mem_nil e))
    exact ⟨this.1, fun ps hps => h.2 ps (by rw [← this.2]; exact hps)⟩

/-- The invariant carries over any event trace whose fires by `p` are all
non-automatic. -/
theorem recoilFoldClean (offsets : ℕ → ℤ → ℚ × ℚ × Bool) (hypotF : ℚ → ℚ → ℚ)
    (typeName : ℕ → String) (p : ℕ) (l : List RecoilEvent)
    (hl : ∀ e ∈ l, ∀ (s : GoPlayer) (auto : Bool) (wt : ℕ) (wn : String)
      (yaw pitch : ℚ) (tick : ℤ),
      e = RecoilEvent.weaponFire (some s) auto wt wn yaw pitch tick →
      s.steamID64 = p → auto = false) :
    ∀ acc, RecoilClean p acc →
      RecoilClean p (l.foldl (recoilStep offsets hypotF typeName) acc) := by
  induction l with
  | nil => exact fun acc h => h
  | cons hd t ih =>
    intro acc h
    rw [List.foldl_cons]
    exact ih (fun e he => hl e (List.mem_cons_of_mem _ he)) _
      (recoilStep_clean offsets hypotF typeName p acc hd
        (hl hd (List.mem_cons_self _ _)) h)

/-- The burst-flush phase of `CollectFinalStats` also only writes at
spray-state keys. -/
theorem recoilFinalizeActiveFold (typeName : ℕ → String) (p : ℕ)
    (l : List (ℕ × SprayState)) (hl : ∀ e ∈ l, e.1 ≠ p) :
    ∀ ds : DemoStats,
      getKey (l.foldl
        (fun acc e => if e.2.inBurst = true then recoilFinalizeBurst typeName e.2 e.1 acc
          else acc) ds).players p = getKey ds.players p := by
  induction l with
  | nil => exact fun ds => rfl
  | cons hd t ih =>
    intro ds
    have hhd : hd.1 ≠ p := hl hd (List.mem_cons_self _ _)
    have ht : ∀ e ∈ t, e.1 ≠ p := fun e he => hl e (List.mem_cons_of_mem _ he)
    rw [List.foldl_cons]
    by_cases hc : hd.2.inBurst = true
    · rw [if_pos hc, ih ht, recoilFinalizeBurst_players_ne _ _ _ _ _ (Ne.symm hhd)]
    · rw [if_neg hc, ih ht]

/-- A player with an empty `recoil` category hits the insufficient-data
branch of the final recoil computation: only the two explicit placeholders
are written, and none of the burst measurements nor the `recoil_score`
component appears. -/
theorem recoilFinalizePlayerStats_clean (ps : PlayerStats)
    (h : getKey ps.categories "recoil" = none) :
    (recoilFinalizePlayerStats ps).GetMetric "recoil" "recoil_score" = none
    ∧ (recoilFinalizePlayerStats ps).GetMetric "recoil" "total_error_sum" = none
    ∧ (recoilFinalizePlayerStats ps).GetMetric "recoil" "total_counted_bullets" = none
    ∧ (recoilFinalizePlayerStats ps).GetMetric "recoil" "burst_count" = none
    ∧ (recoilFinalizePlayerStats ps).GetMetric "recoil" "mean_angular_error"
        = some (floatMetric 0
          "Mean angular error in recoil control (degrees) - insufficient data")
    ∧ (recoilFinalizePlayerStats ps).GetMetric "recoil" "recoil_efficiency"
        = some (percentMetric 0
          "Recoil control efficiency (higher is more suspicious) - insufficient data") := by
  have hbase : ∀ k, ps.GetMetric "recoil" k = none := by
    intro k
    simp [PlayerStats.GetMetric, h]
  have hif : recoilFinalizePlayerStats ps =
      (ps.AddMetric "recoil" "mean_angular_error"
        (floatMetric 0 "Mean angular error in recoil control (degrees) - insufficient data")).AddMetric
        "recoil" "recoil_efficiency"
        (percentMetric 0
          "Recoil control efficiency (higher is more suspicious) - insufficient data") := by
    unfold recoilFinalizePlayerStats
    rw [if_pos (Or.inl (hbase "total_error_sum"))]
  rw [hif]
  refine ⟨?_, ?_, ?_, ?_, ?_, ?_⟩ <;>
    simp [GetMetric_AddMetric, hbase]

/-- **C9.**  A weapon-fire event for a non-automatic weapon is ignored
entirely by the recoil detector (`handleWeaponFire` returns both the
collector state and the demo statistics unchanged), and a player all of
whose fires are non-automatic never enters the in-burst state at any point
of the run — they never even acquire a spray-state entry — and contributes
no recoil metrics: at every prefix of the event trace the player's `recoil`
category is empty, and after the final-stats pass they carry none of the
burst measurements (`total_error_sum`, `total_counted_bullets`,
`burst_count`) and no `recoil_score`, only the two insufficient-data
placeholders that the finalizer writes unconditionally for every player. -/
theorem recoil_nonautomatic_ignored (offsets : ℕ → ℤ → ℚ × ℚ × Bool)
    (hypotF : ℚ → ℚ → ℚ) (typeName : ℕ → String) (events : List RecoilEvent)
    (p : ℕ) (ds0 : DemoStats)
    (hfires : ∀ e ∈ events, ∀ (s : GoPlayer) (auto : Bool) (wt : ℕ) (wn : String)
      (yaw pitch : ℚ) (tick : ℤ),
      e = RecoilEvent.weaponFire (some s) auto wt wn yaw pitch tick →
      s.steamID64 = p → auto = false)
    (hds0 : ∀ ps, getKey ds0.players p = some ps → getKey ps.categories "recoil" = none) :
    (∀ (st : RecoilState) (ds : DemoStats) (s : GoPlayer) (wt : ℕ) (wn : String)
      (yaw pitch : ℚ) (tick : ℤ),
      handleWeaponFire offsets hypotF typeName st ds (some s) false wt wn yaw pitch tick
        = (st, ds))
    ∧ (∀ n : ℕ,
        (∀ e ∈ (recoilRun offsets hypotF typeName (events.take n) ds0).1.sprayStates,
          e.1 ≠ p)
        ∧ (∀ ps,
            getKey (recoilRun offsets hypotF typeName (events.take n) ds0).2.players p
              = some ps → getKey ps.categories "recoil" = none))
    ∧ (∀ ps, getKey (recoilCollectFinalStats typeName
          (recoilRun offsets hypotF typeName events ds0).1
          (recoilRun offsets hypotF typeName events ds0).2).players p = some ps →
        ps.GetMetric "recoil" "recoil_score" = none
        ∧ ps.GetMetric "recoil" "total_error_sum" = none
        ∧ ps.GetMetric "recoil" "total_counted_bullets" = none
        ∧ ps.GetMetric "recoil" "burst_count" = none
        ∧ ps.GetMetric "recoil" "mean_angular_error"
            = some (floatMetric 0
              "Mean angular error in recoil control (degrees) - insufficient data")
        ∧ ps.GetMetric "recoil" "recoil_efficiency"
            = some (percentMetric 0
              "Recoil control efficiency (higher is more suspicious) - insufficient data")) := by
  have hinit : RecoilClean p ((⟨[], 1⟩, ds0) : RecoilState × DemoStats) :=
    ⟨fun e he => absurd he (List.not_mem_nil e), hds0⟩
  have hrun : ∀ l : List RecoilEvent, (∀ e ∈ l, e ∈ events) →
      RecoilClean p (recoilRun offsets hypotF typeName l ds0) := by
    intro l hsub
    exact recoilFoldClean offsets hypotF typeName p l
      (fun e he => hfires e (hsub e he)) _ hinit
  refine ⟨?_, ?_, ?_⟩
  · intro st ds s wt wn yaw pitch tick
    unfold handleWeaponFire
    dsimp only
    by_cases h0 : s.steamID64 = 0
    · rw [if_pos h0]
    · rw [if_neg h0, if_pos rfl]
  · intro n
    exact hrun (events.take n) (fun e he => List.take_subset n events he)
  · intro ps hps
    have hclean := hrun events (fun e he => he)
    unfold recoilCollectFinalStats at hps
    dsimp only at hps
    rw [getKey_map_value] at hps
    rw [recoilFinalizeActiveFold typeName p _ hclean.1] at hps
    cases hg : getKey (recoilRun offsets hypotF typeName events ds0).2.players p with
    | none => rw [hg] at hps; simp at hps
    | some ps0 =>
      rw [hg] at hps
      simp at hps
      rw [← hps]
      exact recoilFinalizePlayerStats_clean ps0 (hclean.2 ps0 hg)

/-- A concrete trace for the C9 scenario: player 3 fires only a
non-automatic weapon. -/
def recoilC9Events : List RecoilEvent :=
  [RecoilEvent.weaponFire (some ⟨3, "p3", 2⟩) false 1 "knife" 1 1 10,
   RecoilEvent.frame 20,
   RecoilEvent.weaponFire (some ⟨3, "p3", 2⟩) false 1 "knife" 2 2 30]

theorem recoil_nonautomatic_ignored_witness :
    handleWeaponFire (fun _ _ => (0, 0, false)) (fun _ _ => 0) (fun _ => "w")
      (⟨[], 1⟩ : RecoilState) NewDemoStats (some ⟨3, "p3", 2⟩) false 1 "knife" 1 1 10
      = ((⟨[], 1⟩ : RecoilState), NewDemoStats)
    ∧ (∀ e ∈ (recoilRun (fun _ _ => (0, 0, false)) (fun _ _ => 0) (fun _ => "w")
        (recoilC9Events.take 3) NewDemoStats).1.sprayStates, e.1 ≠ 3) := by
  have hfires : ∀ e ∈ recoilC9Events, ∀ (s : GoPlayer) (auto : Bool) (wt : ℕ)
      (wn : String) (yaw pitch : ℚ) (tick : ℤ),
      e = RecoilEvent.weaponFire (some s) auto wt wn yaw pitch tick →
      s.steamID64 = 3 → auto = false := by
    intro e he s auto wt wn yaw pitch tick heq hid
    simp only [recoilC9Events, List.mem_cons, List.not_mem_nil, or_false] at he
    rcases he with h1 | h2 | h3
    · rw [h1] at heq
      injection heq with e1 e2 e3 e4 e5 e6 e7
      exact e2.symm
    · rw [h2] at heq
      exact absurd heq (by intro hc; cases hc)
    · rw [h3] at heq
      injection heq with e1 e2 e3 e4 e5 e6 e7
      exact e2.symm
  have hds0 : ∀ ps, getKey NewDemoStats.players 3 = some ps →
      getKey ps.categories "recoil" = none := by
    intro ps hps
    simp [NewDemoStats, getKey] at hps
  have h := recoil_nonautomatic_ignored (fun _ _ => (0, 0, false)) (fun _ _ => 0)
    (fun _ => "w") recoilC9Events 3 NewDemoStats hfires hds0
  exact ⟨h.1 _ _ _ _ _ _ _ _, (h.2.1 3).1⟩
